import Mathlib

/-
Shallow embedding of the rustnix on-disk filesystem
(src/kernel/src/internal/fs.rs) and the parts of the stream layer
(src/src/internal/file.rs) that the claims refer to.

Modelling conventions, used consistently below:
* Rust `u8` bytes are `Nat` (all constructed values stay below 256);
  Rust `u64` values are `Nat` (wrapping subtraction is modelled
  explicitly with `sub64` at the one place the source can wrap).
* A Rust `[u8; 512]` block is a `List Nat`; every block constructed by
  the model has length 512.
* `&self` methods become pure functions returning `Except RunErr`;
  `&mut self` methods become functions `... → PhysFs → PhysFs × Except RunErr α`
  so that the state at the moment of an early error is preserved,
  mirroring Rust's in-place mutation.
* Rust panics (slice-index out of bounds, `Vec::remove` on an empty
  vector, `usize` subtraction underflow, `.expect(..)` on an error)
  are modelled by the distinguished result `RunErr.panicked`.
* The external clock `clk::get_unix_time()` is a `now : Nat` parameter
  (the source may observe up to three slightly different values inside
  `create_file`; the claims under scrutiny do not depend on that).
* The process-wide registry `FILESYSTEMS` keyed by `(bus, dsk)` is
  modelled by passing the mounted `PhysFs` to each virtual-layer
  operation directly; the `bus`/`dsk` fields and the `open_files` list
  play no role in any claim and are omitted from the embedding.
-/

set_option maxRecDepth 1000000

namespace Rustnix

/-- Magic number for the filesystem, `0x727573746e697820`. -/
def MAGIC_NUMBER : Nat := 0x727573746e697820

/-- One block is 512 bytes (`ata::BLOCK_SIZE`). -/
def BLOCK_SIZE : Nat := 512

/-- Number of u64 pointers in one block: `BLOCK_SIZE / 8 = 64`. -/
def POINTERS_PER_BLOCK : Nat := BLOCK_SIZE / 8

/-- The superblock record (`struct Superblock`). -/
structure Superblock where
  magic_number : Nat
  disk_size : Nat
  inode_table_size : Nat
  data_block_size : Nat
  num_inodes : Nat
  num_data_blocks : Nat
deriving DecidableEq

/-- An inode (`struct Inode`). `data_block_pointers` has length 12 and
`file_name` has length 384 for every inode the model constructs. -/
structure Inode where
  num_data_blocks : Nat
  data_block_pointers : List Nat
  single_indirect_block_pointer : Nat
  double_indirect_block_pointer : Nat
  triple_indirect_block_pointer : Nat
  file_name : List Nat
deriving DecidableEq

/-- A data block (`struct DataBlock`): 512 raw bytes. -/
abbrev DataBlock := List Nat

/-- File metadata (`struct FileMetadata`) stored in the first data block. -/
structure FileMetadata where
  owner : Nat
  creation_time : Nat
  modification_time : Nat
  access_time : Nat
  permissions : Nat
deriving DecidableEq

/-- The in-memory physical filesystem (`struct PhysFs`). -/
structure PhysFs where
  superblock : Superblock
  inode_table : List Inode
  data_blocks : List DataBlock
deriving DecidableEq

/-- The errors of `enum FsError`. -/
inductive FsError where
  | InvalidPath | FileNotFound | FileExists | DiskFull | OutOfInodes
  | OutOfDataBlocks | InvalidInode | InvalidDataBlock | InvalidSuperblock
  | InvalidInodeTable | InvalidMetadata | WriteError | ReadError
  | UnwritableFile | UnreadableFile | FilesystemNotFound | FilesystemExists
  | InvalidFileDescriptor
deriving DecidableEq

/-- A run outcome: either a `FsError` value returned by the source, or a
Rust panic (index out of bounds, failed `expect`, arithmetic underflow). -/
inductive RunErr where
  | fsErr (e : FsError)
  | panicked
deriving DecidableEq

deriving instance DecidableEq for Except

/-- Result of a `&self` (read-only) method. -/
abbrev Res (α : Type) := Except RunErr α

/-- Result of a `&mut self` method: the state after the call together
with the returned value, mirroring Rust in-place mutation. -/
abbrev StRes (α : Type) := PhysFs × Except RunErr α

/-- The default inode (`impl Default for Inode`). -/
def Inode.defaultInode : Inode where
  num_data_blocks := 0
  data_block_pointers := List.replicate 12 0
  single_indirect_block_pointer := 0
  double_indirect_block_pointer := 0
  triple_indirect_block_pointer := 0
  file_name := List.replicate 384 0

instance : Inhabited Inode := ⟨Inode.defaultInode⟩

/-- An all-zero data block. -/
def zeroBlock : DataBlock := List.replicate 512 0

/-- Little-endian u64 from the first 8 entries of a byte list
(`u64::from_le_bytes`; every source read is from an 8-byte slice). -/
def leU64 (bs : List Nat) : Nat :=
  (bs.take 8).foldr (fun b acc => b + 256 * acc) 0

/-- Little-endian u64 read at a byte offset inside a block. -/
def leU64At (b : List Nat) (off : Nat) : Nat :=
  leU64 (b.drop off)

/-- The 8 little-endian bytes of a u64 (`u64::to_le_bytes`). -/
def u64ToLe (n : Nat) : List Nat :=
  (List.range 8).map (fun i => n / 256 ^ i % 256)

/-- Overwrite 8 bytes of a block at a byte offset with a u64 value
(one in-place store through the `[u64; 64]` cast in the source). -/
def storeU64At (b : List Nat) (off : Nat) (v : Nat) : List Nat :=
  b.take off ++ u64ToLe v ++ b.drop (off + 8)

/-- Read pointer slot `j` of an indirect block (the `[u64; 64]` cast). -/
def readSlot (b : DataBlock) (j : Nat) : Nat :=
  leU64At b (8 * j)

/-- Checked slot read: Rust indexes a `[u64; 64]` array, so slot numbers
at or above `POINTERS_PER_BLOCK` panic. -/
def slotGet (b : DataBlock) (j : Nat) : Res Nat :=
  if j < POINTERS_PER_BLOCK then .ok (readSlot b j) else .error .panicked

/-- Write pointer slot `j` of an indirect block. -/
def writeSlot (b : DataBlock) (j v : Nat) : DataBlock :=
  storeU64At b (8 * j) v

/-- The 64 pointer values of an indirect block (`pointers.to_vec()`). -/
def slotsOf (b : DataBlock) : List Nat :=
  (List.range POINTERS_PER_BLOCK).map (readSlot b)

/-- `self.data_blocks[i]`: panics when out of bounds. -/
def getBlock (fs : PhysFs) (i : Nat) : Res DataBlock :=
  match fs.data_blocks.get? i with
  | some b => .ok b
  | none => .error .panicked

/-- Replace data block `i` (an in-place element write in the source). -/
def setBlock (fs : PhysFs) (i : Nat) (b : DataBlock) : PhysFs :=
  { fs with data_blocks := fs.data_blocks.set i b }

/-- The `data == [0u8; 512]` test in `find_empty_data_block`. -/
def isZeroBlock (b : DataBlock) : Bool :=
  b == zeroBlock

/-- The `ignore.as_ref().map_or(false, |v| v.contains(&i))` test. -/
def excludedIn (ignore : Option (List Nat)) (i : Nat) : Bool :=
  (ignore.getD []).contains i

/-- The used-check of `find_empty_data_block`: some inode's direct
pointer array contains `i`. -/
def referencedByDirect (fs : PhysFs) (i : Nat) : Bool :=
  fs.inode_table.any (fun r => r.data_block_pointers.contains i)

/-- The scan of `find_empty_data_block` over candidate indices. -/
def findEmptyDataBlockGo (fs : PhysFs) (ignore : Option (List Nat)) :
    List Nat → Res Nat
  | [] => .error (.fsErr .DiskFull)
  | i :: rest =>
    match fs.data_blocks.get? i with
    | none => .error .panicked
    | some b =>
      if isZeroBlock b && !(excludedIn ignore i) then
        if referencedByDirect fs i then findEmptyDataBlockGo fs ignore rest
        else .ok i
      else findEmptyDataBlockGo fs ignore rest

/-- `PhysFs::find_empty_data_block`: scan indices `1..num_data_blocks`
for an all-zero, unreferenced, non-excluded block; `DiskFull` if none. -/
def find_empty_data_block (fs : PhysFs) (ignore : Option (List Nat)) : Res Nat :=
  findEmptyDataBlockGo fs ignore
    (List.range' 1 (fs.superblock.num_data_blocks - 1))

/-- The conjunction of the three freeness conditions checked by
`find_empty_data_block` at index `i`: the block exists and is all-zero,
no inode's direct pointer array references it, and it is not excluded. -/
def freeAtB (fs : PhysFs) (ignore : Option (List Nat)) (i : Nat) : Bool :=
  match fs.data_blocks.get? i with
  | none => false
  | some b => isZeroBlock b && !referencedByDirect fs i && !excludedIn ignore i

/-- The scan of `find_empty_inode` over inode indices. -/
def findEmptyInodeGo (fs : PhysFs) : List Nat → Res Nat
  | [] => .error (.fsErr .OutOfInodes)
  | i :: rest =>
    match fs.inode_table.get? i with
    | none => .error .panicked
    | some r =>
      if r.num_data_blocks = 0 then .ok i else findEmptyInodeGo fs rest

/-- `PhysFs::find_empty_inode`: the lowest inode index whose
`num_data_blocks` is zero; `OutOfInodes` if none. -/
def find_empty_inode (fs : PhysFs) : Res Nat :=
  findEmptyInodeGo fs (List.range fs.superblock.num_inodes)

/-- `PhysFs::write_to_data_block`: bound-check against the superblock,
then copy `data` over the first `data.len()` bytes of the block. -/
def write_to_data_block (data_block : Nat) (data : List Nat) (fs : PhysFs) :
    StRes Unit :=
  if fs.superblock.num_data_blocks ≤ data_block then
    (fs, .error (.fsErr .InvalidDataBlock))
  else
    match fs.data_blocks.get? data_block with
    | none => (fs, .error .panicked)
    | some b =>
      if data.length ≤ 512 then
        (setBlock fs data_block (data ++ b.drop data.length), .ok ())
      else (fs, .error .panicked)

/-- `PhysFs::create_inode`: place the inode in the first free slot. -/
def create_inode (ino : Inode) (fs : PhysFs) : StRes Unit :=
  match find_empty_inode fs with
  | .error e => (fs, .error e)
  | .ok idx => ({ fs with inode_table := fs.inode_table.set idx ino }, .ok ())

/-- `PhysFs::update_inode`: replace the first inode with the same
(zero-padded) file name; `InvalidInode` when there is none. -/
def update_inode (ino : Inode) (fs : PhysFs) : StRes Unit :=
  match fs.inode_table.findIdx? (fun r => r.file_name == ino.file_name) with
  | none => (fs, .error (.fsErr .InvalidInode))
  | some idx => ({ fs with inode_table := fs.inode_table.set idx ino }, .ok ())

/-- Zero-pad a path to the 384-byte `file_name` field (the source copies
the name into a zeroed buffer; names longer than 384 bytes panic,
which callers model separately). -/
def padName (p : List Nat) : List Nat :=
  p ++ List.replicate (384 - p.length) 0

/-- Pack a `[u8; 3]` permission triple into the stored u64
(`u64::from_le_bytes([p0, p1, p2, 0, 0, 0, 0, 0])`). -/
def permsU64 (perms : List Nat) : Nat :=
  perms.getD 0 0 + 256 * perms.getD 1 0 + 65536 * perms.getD 2 0

/-- Encode a metadata block: owner, three timestamps, permissions, then
zeros up to 512 bytes. -/
def encodeMetadata (m : FileMetadata) : DataBlock :=
  u64ToLe m.owner ++ u64ToLe m.creation_time ++ u64ToLe m.modification_time ++
    u64ToLe m.access_time ++ u64ToLe m.permissions ++ List.replicate 472 0

/-- Decode the five metadata fields from a metadata block. -/
def decodeMetadata (b : DataBlock) : FileMetadata where
  owner := leU64At b 0
  creation_time := leU64At b 8
  modification_time := leU64At b 16
  access_time := leU64At b 24
  permissions := leU64At b 32

/-- `PhysFs::create_file`: allocate a metadata block, build the inode,
write the encoded metadata, then claim a free inode slot. Both
timestamp reads of the clock are the single parameter `now`. -/
def create_file (file_name : List Nat) (perms : List Nat) (owner now : Nat)
    (fs : PhysFs) : StRes Unit :=
  match find_empty_data_block fs none with
  | .error e => (fs, .error e)
  | .ok data_block =>
    if file_name.length ≤ 384 then
      let ino : Inode :=
        { num_data_blocks := 1
          data_block_pointers := (List.replicate 12 0).set 0 data_block
          single_indirect_block_pointer := 0
          double_indirect_block_pointer := 0
          triple_indirect_block_pointer := 0
          file_name := padName file_name }
      let md : FileMetadata :=
        { owner := owner, creation_time := now, modification_time := now
          access_time := now, permissions := permsU64 perms }
      match write_to_data_block data_block (encodeMetadata md) fs with
      | (fs1, .error e) => (fs1, .error e)
      | (fs1, .ok _) => create_inode ino fs1
    else (fs, .error .panicked)

/-- `PhysFs::find_inode_by_name`: the first inode whose 384-byte name
equals the zero-padded path. -/
def find_inode_by_name (fs : PhysFs) (file_name : List Nat) : Res Inode :=
  if file_name.length ≤ 384 then
    match fs.inode_table.find? (fun r => r.file_name == padName file_name) with
    | some r => .ok r
    | none => .error (.fsErr .FileNotFound)
  else .error .panicked

/-- Collect the non-zero pointers of each single-indirect block in the
given list (inner loop of `get_all_block_addresses`). -/
def collectSingles (fs : PhysFs) : List Nat → Res (List Nat)
  | [] => .ok []
  | p :: rest => do
    let b ← getBlock fs p
    let tail ← collectSingles fs rest
    pure ((slotsOf b).filter (· ≠ 0) ++ tail)

/-- Collect through one more indirection level (the double-indirect
inner loops of `get_all_block_addresses`). -/
def collectDoubles (fs : PhysFs) : List Nat → Res (List Nat)
  | [] => .ok []
  | p :: rest => do
    let b ← getBlock fs p
    let inner ← collectSingles fs ((slotsOf b).filter (· ≠ 0))
    let tail ← collectDoubles fs rest
    pure (inner ++ tail)

/-- `PhysFs::get_all_block_addresses`: non-zero direct pointers, then
the non-zero pointers reached through the single-, double- and
triple-indirect blocks, in slot order. -/
def get_all_block_addresses (fs : PhysFs) (ino : Inode) : Res (List Nat) := do
  let direct := ino.data_block_pointers.filter (· ≠ 0)
  let single ←
    if ino.single_indirect_block_pointer = 0 then pure [] else do
      let b ← getBlock fs ino.single_indirect_block_pointer
      pure ((slotsOf b).filter (· ≠ 0))
  let dbl ←
    if ino.double_indirect_block_pointer = 0 then pure [] else do
      let b ← getBlock fs ino.double_indirect_block_pointer
      collectSingles fs ((slotsOf b).filter (· ≠ 0))
  let trpl ←
    if ino.triple_indirect_block_pointer = 0 then pure [] else do
      let b ← getBlock fs ino.triple_indirect_block_pointer
      collectDoubles fs ((slotsOf b).filter (· ≠ 0))
  pure (direct ++ single ++ dbl ++ trpl)

/-- The data-gathering loop of `read_file`: concatenate the blocks at
`inode_pointers[i]` for the given logical indices `i`. -/
def readBlocksLoop (fs : PhysFs) (addrs : List Nat) : List Nat → Res (List Nat)
  | [] => .ok []
  | i :: rest =>
    match addrs.get? i with
    | none => .error .panicked
    | some a => do
      let b ← getBlock fs a
      let tail ← readBlocksLoop fs addrs rest
      pure (b ++ tail)

/-- `PhysFs::read_file`: decode the metadata from `direct[0]`, gather
every addressable block, and concatenate blocks `1..num_data_blocks`. -/
def read_file (fs : PhysFs) (file_name : List Nat) :
    Res (List Nat × FileMetadata) := do
  let ino ← find_inode_by_name fs file_name
  let mb ← getBlock fs (ino.data_block_pointers.getD 0 0)
  let md := decodeMetadata mb
  let addrs ← get_all_block_addresses fs ino
  let data ← readBlocksLoop fs addrs (List.range' 1 (ino.num_data_blocks - 1))
  pure (data, md)

/-- Body of `allocate_single_indirect_block` after the pointer is known
to be non-zero: pick a fresh block excluding the current slot values and
store it at slot `block_num % 64`. A failing `find_empty_data_block`
hits the `.expect`, i.e. panics. -/
def allocSingleCore (ino : Inode) (block_num : Nat) (fs : PhysFs) :
    PhysFs × Except RunErr Inode :=
  let bi := block_num % POINTERS_PER_BLOCK
  match getBlock fs ino.single_indirect_block_pointer with
  | .error e => (fs, .error e)
  | .ok b =>
    match find_empty_data_block fs (some (slotsOf b)) with
    | .error _ => (fs, .error .panicked)
    | .ok v =>
      (setBlock fs ino.single_indirect_block_pointer (writeSlot b bi v),
        .ok ino)

/-- `PhysFs::allocate_single_indirect_block` (returning the mutated
inode argument). -/
def allocate_single_indirect_block (ino : Inode) (block_num : Nat)
    (fs : PhysFs) : PhysFs × Except RunErr Inode :=
  if ino.single_indirect_block_pointer = 0 then
    match find_empty_data_block fs none with
    | .error _ => (fs, .error .panicked)
    | .ok s =>
      allocSingleCore { ino with single_indirect_block_pointer := s }
        block_num fs
  else allocSingleCore ino block_num fs

/-- Body of `allocate_double_indirect_block` after the pointer is known
to be non-zero: ensure slot `block_num / 64` is populated, then recurse
through `allocate_single_indirect_block` on a temporary inode whose
single pointer is the (re-read) slot value; the temporary is dropped. -/
def allocDoubleCore (ino : Inode) (block_num : Nat) (fs : PhysFs) :
    PhysFs × Except RunErr Inode :=
  let bi := block_num / POINTERS_PER_BLOCK
  match getBlock fs ino.double_indirect_block_pointer with
  | .error e => (fs, .error e)
  | .ok b =>
    match slotGet b bi with
    | .error e => (fs, .error e)
    | .ok v0 =>
      match (if v0 = 0 then
               match find_empty_data_block fs (some (slotsOf b)) with
               | .error _ => none
               | .ok w =>
                 some (setBlock fs ino.double_indirect_block_pointer
                   (writeSlot b bi w))
             else some fs) with
      | none => (fs, .error .panicked)
      | some fs1 =>
        match getBlock fs1 ino.double_indirect_block_pointer with
        | .error e => (fs1, .error e)
        | .ok b1 =>
          match slotGet b1 bi with
          | .error e => (fs1, .error e)
          | .ok p =>
            match allocate_single_indirect_block
                { Inode.defaultInode with single_indirect_block_pointer := p }
                (block_num % POINTERS_PER_BLOCK) fs1 with
            | (fs2, .error e) => (fs2, .error e)
            | (fs2, .ok _) => (fs2, .ok ino)

/-- `PhysFs::allocate_double_indirect_block`. -/
def allocate_double_indirect_block (ino : Inode) (block_num : Nat)
    (fs : PhysFs) : PhysFs × Except RunErr Inode :=
  if ino.double_indirect_block_pointer = 0 then
    match find_empty_data_block fs none with
    | .error _ => (fs, .error .panicked)
    | .ok s =>
      allocDoubleCore { ino with double_indirect_block_pointer := s }
        block_num fs
  else allocDoubleCore ino block_num fs

/-- Body of `allocate_triple_indirect_block` after the pointer is known
to be non-zero: slot index is `block_num / 64²` (panicking at 64 and
above), then recurse through `allocate_double_indirect_block` on a
dropped temporary inode. -/
def allocTripleCore (ino : Inode) (block_num : Nat) (fs : PhysFs) :
    PhysFs × Except RunErr Inode :=
  let bi := block_num / (POINTERS_PER_BLOCK * POINTERS_PER_BLOCK)
  match getBlock fs ino.triple_indirect_block_pointer with
  | .error e => (fs, .error e)
  | .ok b =>
    match slotGet b bi with
    | .error e => (fs, .error e)
    | .ok v0 =>
      match (if v0 = 0 then
               match find_empty_data_block fs (some (slotsOf b)) with
               | .error _ => none
               | .ok w =>
                 some (setBlock fs ino.triple_indirect_block_pointer
                   (writeSlot b bi w))
             else some fs) with
      | none => (fs, .error .panicked)
      | some fs1 =>
        match getBlock fs1 ino.triple_indirect_block_pointer with
        | .error e => (fs1, .error e)
        | .ok b1 =>
          match slotGet b1 bi with
          | .error e => (fs1, .error e)
          | .ok p =>
            match allocate_double_indirect_block
                { Inode.defaultInode with double_indirect_block_pointer := p }
                (block_num % (POINTERS_PER_BLOCK * POINTERS_PER_BLOCK)) fs1 with
            | (fs2, .error e) => (fs2, .error e)
            | (fs2, .ok _) => (fs2, .ok ino)

/-- `PhysFs::allocate_triple_indirect_block`. -/
def allocate_triple_indirect_block (ino : Inode) (block_num : Nat)
    (fs : PhysFs) : PhysFs × Except RunErr Inode :=
  if ino.triple_indirect_block_pointer = 0 then
    match find_empty_data_block fs none with
    | .error _ => (fs, .error .panicked)
    | .ok s =>
      allocTripleCore { ino with triple_indirect_block_pointer := s }
        block_num fs
  else allocTripleCore ino block_num fs

/-- The pointer-assignment loop of `write_file` (`for i in 0..n`):
either reuse the block already addressed by the inode at that logical
position or allocate a fresh one, excluding everything assigned so far. -/
def allocLoop (fs : PhysFs) (ex : List Nat) (ptrs : List Nat) :
    List Nat → Res (List Nat)
  | [] => .ok ptrs
  | i :: rest =>
    if i < ex.length then allocLoop fs ex (ptrs.set i (ex.getD i 0)) rest
    else
      match find_empty_data_block fs (some ptrs) with
      | .error e => .error e
      | .ok b => allocLoop fs ex (ptrs.set i b) rest

/-- The chunk-writing loop of `write_file`: store each 512-byte slice
of the padded data into its assigned block. -/
def writeChunksLoop (data : List Nat) (ptrs : List Nat) (fs : PhysFs) :
    List Nat → StRes Unit
  | [] => (fs, .ok ())
  | i :: rest =>
    match write_to_data_block (ptrs.getD i 0)
        ((data.drop (i * 512)).take 512) fs with
    | (fs1, .error e) => (fs1, .error e)
    | (fs1, .ok _) => writeChunksLoop data ptrs fs1 rest

/-- The pointer-wiring loop of `write_file` (`for i in 0..ptrs.len()`),
transcribed branch by branch from the source. Direct slots are written
into the local `updated_inode`; indirect slots are written through the
`[u64; 64]` casts into the data blocks, re-reading each slot at the
exact program point the source reads it. -/
def wireLoop (ptrs : List Nat) : List Nat → Inode → PhysFs →
    PhysFs × Except RunErr Inode
  | [], ui, fs => (fs, .ok ui)
  | i :: rest, ui, fs =>
    if i + 1 < 12 then
      wireLoop ptrs rest
        { ui with data_block_pointers :=
            ui.data_block_pointers.set (i + 1) (ptrs.getD i 0) } fs
    else if i + 1 < 12 + POINTERS_PER_BLOCK then
      match allocate_single_indirect_block ui (i + 1 - 12) fs with
      | (fs1, .error e) => (fs1, .error e)
      | (fs1, .ok ui1) =>
        let bi := (i + 1) % POINTERS_PER_BLOCK
        match getBlock fs1 ui1.single_indirect_block_pointer with
        | .error e => (fs1, .error e)
        | .ok b =>
          wireLoop ptrs rest ui1
            (setBlock fs1 ui1.single_indirect_block_pointer
              (writeSlot b bi (ptrs.getD i 0)))
    else if i + 1 < 12 + POINTERS_PER_BLOCK * POINTERS_PER_BLOCK then
      match allocate_double_indirect_block ui
          (i + 1 - 12 - POINTERS_PER_BLOCK) fs with
      | (fs1, .error e) => (fs1, .error e)
      | (fs1, .ok ui1) =>
        let bi := (i + 1) / POINTERS_PER_BLOCK
        match getBlock fs1 ui1.double_indirect_block_pointer with
        | .error e => (fs1, .error e)
        | .ok b =>
          match slotGet b bi with
          | .error e => (fs1, .error e)
          | .ok v0 =>
            match (if v0 = 0 then
                     match find_empty_data_block fs1 (some (slotsOf b)) with
                     | .error _ => none
                     | .ok w =>
                       some (setBlock fs1 ui1.double_indirect_block_pointer
                         (writeSlot b bi w))
                   else some fs1) with
            | none => (fs1, .error .panicked)
            | some fs2 =>
              match getBlock fs2 ui1.double_indirect_block_pointer with
              | .error e => (fs2, .error e)
              | .ok b2 =>
                match slotGet b2 bi with
                | .error e => (fs2, .error e)
                | .ok p =>
                  match allocate_single_indirect_block
                      { Inode.defaultInode with
                        single_indirect_block_pointer := p }
                      ((i + 1) % POINTERS_PER_BLOCK) fs2 with
                  | (fs3, .error e) => (fs3, .error e)
                  | (fs3, .ok _) =>
                    match getBlock fs3 ui1.double_indirect_block_pointer with
                    | .error e => (fs3, .error e)
                    | .ok b3 =>
                      match slotGet b3 bi with
                      | .error e => (fs3, .error e)
                      | .ok p2 =>
                        match getBlock fs3 p2 with
                        | .error e => (fs3, .error e)
                        | .ok sb =>
                          wireLoop ptrs rest ui1
                            (setBlock fs3 p2
                              (writeSlot sb ((i + 1) % POINTERS_PER_BLOCK)
                                (ptrs.getD i 0)))
    else
      match allocate_triple_indirect_block ui
          (i + 1 - 12 - POINTERS_PER_BLOCK * POINTERS_PER_BLOCK) fs with
      | (fs1, .error e) => (fs1, .error e)
      | (fs1, .ok ui1) =>
        let bi := (i + 1) / (POINTERS_PER_BLOCK * POINTERS_PER_BLOCK)
        match getBlock fs1 ui1.triple_indirect_block_pointer with
        | .error e => (fs1, .error e)
        | .ok b =>
          match slotGet b bi with
          | .error e => (fs1, .error e)
          | .ok v0 =>
            match (if v0 = 0 then
                     match find_empty_data_block fs1 (some (slotsOf b)) with
                     | .error _ => none
                     | .ok w =>
                       some (setBlock fs1 ui1.triple_indirect_block_pointer
                         (writeSlot b bi w))
                   else some fs1) with
            | none => (fs1, .error .panicked)
            | some fs2 =>
              match getBlock fs2 ui1.triple_indirect_block_pointer with
              | .error e => (fs2, .error e)
              | .ok b2 =>
                match slotGet b2 bi with
                | .error e => (fs2, .error e)
                | .ok p =>
                  match allocate_double_indirect_block
                      { Inode.defaultInode with
                        double_indirect_block_pointer := p }
                      ((i + 1) % (POINTERS_PER_BLOCK * POINTERS_PER_BLOCK))
                      fs2 with
                  | (fs3, .error e) => (fs3, .error e)
                  | (fs3, .ok _) =>
                    let j := (i + 1) % (POINTERS_PER_BLOCK * POINTERS_PER_BLOCK)
                    match getBlock fs3 p with
                    | .error e => (fs3, .error e)
                    | .ok db =>
                      match slotGet db j with
                      | .error e => (fs3, .error e)
                      | .ok u =>
                        match allocate_single_indirect_block
                            { Inode.defaultInode with
                              single_indirect_block_pointer := u }
                            ((i + 1) % POINTERS_PER_BLOCK) fs3 with
                        | (fs4, .error e) => (fs4, .error e)
                        | (fs4, .ok _) =>
                          match getBlock fs4 p with
                          | .error e => (fs4, .error e)
                          | .ok db2 =>
                            match slotGet db2 j with
                            | .error e => (fs4, .error e)
                            | .ok u2 =>
                              match getBlock fs4 u2 with
                              | .error e => (fs4, .error e)
                              | .ok sb =>
                                wireLoop ptrs rest ui1
                                  (setBlock fs4 u2
                                    (writeSlot sb
                                      ((i + 1) % POINTERS_PER_BLOCK)
                                      (ptrs.getD i 0)))

/-- The local `ceil` of `write_file` applied to `len / 512.0`. It is
only ever applied to the zero-padded data, whose length is an exact
multiple of 512, where the f64 computation is exact and equals the
integer ceiling below. -/
def ceilDiv512 (l : Nat) : Nat := (l + 511) / 512

/-- The refreshed metadata record written by `write_file`: decode the
existing metadata, keep the creation and access times, set the
modification time to now, and let the optional arguments override the
owner and permissions. -/
def writeFileMeta (mb : DataBlock) (perms : Option (List Nat))
    (owner : Option Nat) (now : Nat) : FileMetadata :=
  let em := decodeMetadata mb
  { owner := owner.getD em.owner
    creation_time := em.creation_time
    modification_time := now
    access_time := em.access_time
    permissions :=
      match perms with
      | some p => permsU64 p
      | none => em.permissions }

/-- `PhysFs::write_file`: pad the data to a 512-byte multiple, refresh
the metadata block, assign a block to every 512-byte chunk (reusing the
previously addressed blocks first), write the chunks, then wire the
pointers through the direct/indirect structure. -/
def write_file (file_name : List Nat) (data0 : List Nat)
    (perms : Option (List Nat)) (owner : Option Nat) (now : Nat)
    (fs : PhysFs) : StRes Unit :=
  let padding := 512 - data0.length % 512
  let data := data0 ++ List.replicate padding 0
  match find_inode_by_name fs file_name with
  | .error e => (fs, .error e)
  | .ok ino =>
    match getBlock fs (ino.data_block_pointers.getD 0 0) with
    | .error e => (fs, .error e)
    | .ok mb =>
      match write_to_data_block (ino.data_block_pointers.getD 0 0)
          (encodeMetadata (writeFileMeta mb perms owner now)) fs with
      | (fs1, .error e) => (fs1, .error e)
      | (fs1, .ok _) =>
        let n := ceilDiv512 data.length
        let ptrs0 := (List.replicate n 0).set 0
          (ino.data_block_pointers.getD 0 0)
        match get_all_block_addresses fs1 ino with
        | .error e => (fs1, .error e)
        | .ok allAddrs =>
          match allAddrs with
          | [] => (fs1, .error .panicked)
          | _ :: ex =>
            match allocLoop fs1 ex ptrs0 (List.range n) with
            | .error e => (fs1, .error e)
            | .ok ptrs =>
              match writeChunksLoop data ptrs fs1 (List.range n) with
              | (fs2, .error e) => (fs2, .error e)
              | (fs2, .ok _) =>
                let ui0 := { ino with num_data_blocks := ptrs.length + 1 }
                match update_inode ui0 fs2 with
                | (fs3, .error e) => (fs3, .error e)
                | (fs3, .ok _) =>
                  match wireLoop ptrs (List.range ptrs.length) ui0 fs3 with
                  | (fs4, .error e) => (fs4, .error e)
                  | (fs4, .ok ui) => update_inode ui fs4

/-- Wrapping u64 subtraction (`a - b` on u64 operands below `2^64`). -/
def sub64 (a b : Nat) : Nat :=
  (((a : Int) - (b : Int)) % (2 ^ 64 : Int)).toNat

/-- `VirtFs::new(bus, dsk, disk_size)`: the physical filesystem of the
freshly inserted virtual filesystem. The superblock advertises
`disk_size / 512 - 1024 - 1` data blocks, but the in-memory vector is
built with a hard-coded 1024 entries. -/
def VirtFs.new (disk_size : Nat) : PhysFs where
  superblock :=
    { magic_number := MAGIC_NUMBER
      disk_size := disk_size
      inode_table_size := 1024
      data_block_size := 512
      num_inodes := 1024
      num_data_blocks := sub64 (sub64 (disk_size / 512) 1024) 1 }
  inode_table := List.replicate 1024 Inode.defaultInode
  data_blocks := List.replicate 1024 zeroBlock

/-- A file handle (`struct FileHandle`); the `(bus, dsk)` pair is
represented by passing the mounted `PhysFs` to each operation. -/
structure FileHandle where
  file_name : List Nat
  flags : Nat
  file_pos : Nat
deriving DecidableEq

/-- The two poll events (`enum IOEvent`). -/
inductive IOEvent where
  | Read
  | Write
deriving DecidableEq

/-- Flag bit values from `enum FileFlags`:
Read = 1, Write = 2, Append = 4, Create = 8, Truncate = 16, Device = 32. -/
def FileFlags.Read : Nat := 1
def FileFlags.Write : Nat := 2
def FileFlags.Append : Nat := 4
def FileFlags.Create : Nat := 8

/-- `<FileHandle as Stream>::poll`, exactly as written in the source:
`IOEvent::Read => !(self.flags & (FileFlags::Read as u8) != 0)` and
likewise for `Write`. -/
def FileHandle.poll (h : FileHandle) (event : IOEvent) : Bool :=
  match event with
  | .Read => !(h.flags &&& FileFlags.Read != 0)
  | .Write => !(h.flags &&& FileFlags.Write != 0)

/-- `<FileHandle as Stream>::seek`: store the position, return it. -/
def FileHandle.seek (h : FileHandle) (pos : Nat) :
    Except RunErr (Nat × FileHandle) :=
  .ok (pos, { h with file_pos := pos })

/-- `<FileHandle as Stream>::read`: check the Read flag (the source
reports `PermissionError(ReadError)`), read the whole padded file, copy
`min(buf.len, data.len - pos)` bytes into the buffer and advance the
position. The `usize` subtraction `data.len() - self.file_pos` (and the
subsequent slice) panics when the position exceeds the padded length. -/
def FileHandle.read (fs : PhysFs) (h : FileHandle) (buf : List Nat) :
    Except RunErr (Nat × List Nat × FileHandle) :=
  if h.flags &&& FileFlags.Read = 0 then .error (.fsErr .ReadError)
  else
    match read_file fs h.file_name with
    | .error e => .error e
    | .ok (data, _) =>
      if h.file_pos ≤ data.length then
        let len := min buf.length (data.length - h.file_pos)
        .ok (len, (data.drop h.file_pos).take len ++ buf.drop len,
          { h with file_pos := h.file_pos + len })
      else .error .panicked

/-- The tail of `VirtFs::open` once the file is known to exist: build
the handle, and position it at the end of the data when `Append` is
set. -/
def afterOpen (path : List Nat) (flags : Nat) (fs : PhysFs) :
    PhysFs × Except RunErr FileHandle :=
  if flags &&& FileFlags.Append ≠ 0 then
    match read_file fs path with
    | .error e => (fs, .error e)
    | .ok (data, _) => (fs, .ok ⟨path, flags, data.length⟩)
  else (fs, .ok ⟨path, flags, 0⟩)

/-- `<VirtFs as FileSystem>::open`: if reading the file fails and the
`Create` flag is set, create it with permissions `[6, 6, 6]` and owner
0; without `Create` fail with `FileNotFound`. -/
def VirtFs.openFile (path : List Nat) (flags now : Nat) (fs : PhysFs) :
    PhysFs × Except RunErr FileHandle :=
  match read_file fs path with
  | .ok _ => afterOpen path flags fs
  | .error .panicked => (fs, .error .panicked)
  | .error (.fsErr _) =>
    if flags &&& FileFlags.Create ≠ 0 then
      match create_file path [6, 6, 6] 0 now fs with
      | (fs1, .error e) => (fs1, .error e)
      | (fs1, .ok _) => afterOpen path flags fs1
    else (fs, .error (.fsErr .FileNotFound))

/-- The block-zeroing loop of `VirtFs::delete`
(`for i in 0..inode.num_data_blocks`): indexing the 12-entry direct
array or the data-block vector out of bounds panics. -/
def deleteZeroLoop (dp : List Nat) (fs : PhysFs) :
    List Nat → PhysFs × Except RunErr Unit
  | [] => (fs, .ok ())
  | i :: rest =>
    match dp.get? i with
    | none => (fs, .error .panicked)
    | some ptr =>
      match fs.data_blocks.get? ptr with
      | none => (fs, .error .panicked)
      | some _ => deleteZeroLoop dp (setBlock fs ptr zeroBlock) rest

/-- `<VirtFs as FileSystem>::delete`: zero the blocks behind the first
`num_data_blocks` direct pointers, then retain only the inodes whose
name differs from the deleted one. -/
def VirtFs.delete (path : List Nat) (fs : PhysFs) : StRes Unit :=
  match find_inode_by_name fs path with
  | .error e => (fs, .error e)
  | .ok ino =>
    match deleteZeroLoop ino.data_block_pointers fs
        (List.range ino.num_data_blocks) with
    | (fs1, .error e) => (fs1, .error e)
    | (fs1, .ok _) =>
      ({ fs1 with inode_table :=
          fs1.inode_table.filter (fun r => r.file_name != ino.file_name) },
        .ok ())

/-- `<VirtFs as FileSystem>::exists`: `find_inode_by_name(..).is_ok()`. -/
def VirtFs.existsFile (path : List Nat) (fs : PhysFs) : Bool :=
  match find_inode_by_name fs path with
  | .ok _ => true
  | .error _ => false

/-- `<VirtFs as FileSystem>::list`: the (full 384-byte, zero-padded)
names of all inodes whose name starts with the given prefix. The
source's `String::from_utf8(..).unwrap()` is modelled by returning the
raw name bytes. -/
def VirtFs.list (pre : List Nat) (fs : PhysFs) : List (List Nat) :=
  (fs.inode_table.map (fun r => r.file_name)).filter
    (fun nm => nm.take pre.length == pre)

/-- `<VirtFs as FileSystem>::get_owner`: decode the metadata block
behind `direct[0]`. -/
def get_owner (fs : PhysFs) (path : List Nat) : Res Nat := do
  let ino ← find_inode_by_name fs path
  let mb ← getBlock fs (ino.data_block_pointers.getD 0 0)
  pure (decodeMetadata mb).owner

/-- `<VirtFs as FileSystem>::get_perms`: the low three little-endian
bytes of the stored permission u64. -/
def get_perms (fs : PhysFs) (path : List Nat) : Res (List Nat) := do
  let ino ← find_inode_by_name fs path
  let mb ← getBlock fs (ino.data_block_pointers.getD 0 0)
  let v := (decodeMetadata mb).permissions
  pure [v % 256, v / 256 % 256, v / 65536 % 256]

/-- Filesystem states reachable from a freshly created blank filesystem
by successful `create_file`, `write_file` and `delete` operations. -/
inductive Reachable : PhysFs → Prop
  | blank (size : Nat) : Reachable (VirtFs.new size)
  | create {fs fs2 : PhysFs} {p perms : List Nat} {owner now : Nat} :
      Reachable fs → create_file p perms owner now fs = (fs2, .ok ()) →
      Reachable fs2
  | write {fs fs2 : PhysFs} {p data : List Nat} {perms : Option (List Nat)}
      {owner : Option Nat} {now : Nat} :
      Reachable fs → write_file p data perms owner now fs = (fs2, .ok ()) →
      Reachable fs2
  | del {fs fs2 : PhysFs} {p : List Nat} :
      Reachable fs → VirtFs.delete p fs = (fs2, .ok ()) → Reachable fs2

/-- Structural well-formedness of one inode's direct pointer area, as
maintained by the allocator: the array has its 12 slots, its non-zero
entries form a duplicate-free prefix, and a populated single-indirect
pointer implies a full direct array (each indirection level implies the
previous one is populated). -/
def DirectOk (r : Inode) : Prop :=
  r.data_block_pointers.length = 12 ∧
  (∀ i j, i < j → j < 12 → r.data_block_pointers.getD j 0 ≠ 0 →
    r.data_block_pointers.getD i 0 ≠ 0) ∧
  (r.single_indirect_block_pointer ≠ 0 →
    ∀ i, i < 12 → r.data_block_pointers.getD i 0 ≠ 0) ∧
  (r.double_indirect_block_pointer ≠ 0 →
    r.single_indirect_block_pointer ≠ 0) ∧
  (r.triple_indirect_block_pointer ≠ 0 →
    r.double_indirect_block_pointer ≠ 0) ∧
  (∀ i j, i < j → j < 12 → r.data_block_pointers.getD i 0 ≠ 0 →
    r.data_block_pointers.getD i 0 ≠ r.data_block_pointers.getD j 0)

/-- Table-wide allocator invariant: every row is structurally sound and
no non-zero direct pointer is shared between two rows. -/
def TableOk (fs : PhysFs) : Prop :=
  (∀ r ∈ fs.inode_table, DirectOk r) ∧
  fs.inode_table.Pairwise (fun r1 r2 => ∀ i j, i < 12 → j < 12 →
    r1.data_block_pointers.getD i 0 ≠ 0 →
    r1.data_block_pointers.getD i 0 ≠ r2.data_block_pointers.getD j 0)

/-! Concrete fixtures used by witnesses and counterexamples. `mkBlankFs`
is the shape shared by `VirtFs::new`, `add_fs` and the unit tests at the
bottom of `fs.rs`: a zeroed inode table and zeroed data blocks, with the
superblock announcing their true sizes. -/

/-- A blank in-memory filesystem with `ni` inodes and `nb` data blocks
(superblock sizes matching the vectors, as in the source's unit tests). -/
def mkBlankFs (ni nb : Nat) : PhysFs where
  superblock :=
    { magic_number := MAGIC_NUMBER
      disk_size := 512 * (1 + ni + nb)
      inode_table_size := ni
      data_block_size := 512
      num_inodes := ni
      num_data_blocks := nb }
  inode_table := List.replicate ni Inode.defaultInode
  data_blocks := List.replicate nb zeroBlock

/-- The path `/a`. -/
def pathA : List Nat := [47, 97]

/-- The path `/b`. -/
def pathB : List Nat := [47, 98]

/-- A 6145-byte payload of ones (one byte more than 12 blocks). -/
def c1bigB : List Nat := List.replicate 6145 1

/-- `c1bigB` padded to a 512-byte multiple, as `write_file` pads it. -/
def c1data : List Nat := c1bigB ++ List.replicate 511 0

/-- The blank 2-inode, 17-block filesystem for the C1 counterexample. -/
def c1fs0 : PhysFs := mkBlankFs 2 17

/-- A data chunk of 512 one-bytes. -/
def onesChunk : DataBlock := List.replicate 512 1

/-- The last data chunk of `c1data`: one 1 then zero padding. -/
def lastChunk : DataBlock := 1 :: List.replicate 511 0

/-- The metadata block written by `create_file("/a", [6,6,6], 0)` at
time 1. -/
def metaC : DataBlock := encodeMetadata
  { owner := 0, creation_time := 1, modification_time := 1, access_time := 1,
    permissions := permsU64 [6, 6, 6] }

/-- The refreshed metadata block written by `write_file` at time 2. -/
def metaW : DataBlock := encodeMetadata
  { owner := 0, creation_time := 1, modification_time := 2, access_time := 1,
    permissions := permsU64 [6, 6, 6] }

/-- The inode of `/a` right after creation: metadata block 1. -/
def inoA : Inode where
  num_data_blocks := 1
  data_block_pointers := (List.replicate 12 0).set 0 1
  single_indirect_block_pointer := 0
  double_indirect_block_pointer := 0
  triple_indirect_block_pointer := 0
  file_name := padName pathA

/-- State after `create_file("/a", [6,6,6], 0)` on `c1fs0`. -/
def c1fsA : PhysFs :=
  { c1fs0 with
    inode_table := [inoA, Inode.defaultInode]
    data_blocks := c1fs0.data_blocks.set 1 metaC }

/-- State after `write_file` has refreshed the metadata block. -/
def c1fsW1 : PhysFs :=
  { c1fsA with data_blocks := c1fsA.data_blocks.set 1 metaW }

/-- The data-block assignment `write_file` computes for the 13 chunks. -/
def c1ptrs : List Nat := [2, 3, 4, 5, 6, 7, 8, 9, 10, 11, 12, 13, 14]

/-- State after the 13 chunk writes. -/
def c1fsW2 : PhysFs :=
  { c1fsW1 with data_blocks :=
      ((((((((((((c1fsW1.data_blocks.set 2 onesChunk).set 3 onesChunk).set 4
        onesChunk).set 5 onesChunk).set 6 onesChunk).set 7 onesChunk).set 8
        onesChunk).set 9 onesChunk).set 10 onesChunk).set 11 onesChunk).set 12
        onesChunk).set 13 onesChunk).set 14 lastChunk }

/-- The inode as first updated by `write_file` (new block count, old
pointers). -/
def c1ui0 : Inode := { inoA with num_data_blocks := 14 }

/-- State after the first `update_inode` of `write_file`. -/
def c1fsW3 : PhysFs :=
  { c1fsW2 with inode_table := [c1ui0, Inode.defaultInode] }

/-- The single-indirect block produced by the wiring loop: slot 0 holds
the stale self-pointer 15, slot 1 the stale pointer 16, and slots 12
and 13 the data pointers 13 and 14 (in write order). -/
def indBlock : DataBlock :=
  writeSlot (writeSlot (writeSlot (writeSlot zeroBlock 0 15) 12 13) 1 16) 13 14

/-- The final inode of `/a` after the large write. -/
def inoB : Inode :=
  { c1ui0 with
    data_block_pointers := [1, 2, 3, 4, 5, 6, 7, 8, 9, 10, 11, 12]
    single_indirect_block_pointer := 15 }

/-- State after the wiring loop. -/
def c1fsW4 : PhysFs :=
  { c1fsW3 with data_blocks := c1fsW3.data_blocks.set 15 indBlock }

/-- State after additionally `write_file("/a", c1bigB)`: the final
state of the C1 counterexample run. -/
def c1fsB : PhysFs :=
  { c1fsW4 with inode_table := [inoB, Inode.defaultInode] }

/-- The block-address list `read_file` gathers for `inoB`: the direct
pointers, then the non-zero slots of the indirect block in slot order —
including the stale pointers 15 (the indirect block itself) and 16
ahead of the real data pointers 13 and 14. -/
def c1addrs : List Nat := [1, 2, 3, 4, 5, 6, 7, 8, 9, 10, 11, 12, 15, 16, 13, 14]

/-- The raw bytes `read_file` returns for `/a` after the large write:
eleven one-chunks, then the indirect block itself, then a never-written
zero block. -/
def c1readData : List Nat :=
  onesChunk ++ (onesChunk ++ (onesChunk ++ (onesChunk ++ (onesChunk ++
    (onesChunk ++ (onesChunk ++ (onesChunk ++ (onesChunk ++ (onesChunk ++
      (onesChunk ++ (indBlock ++ (zeroBlock ++ []))))))))))))

/-- The blank filesystem for the C2 counterexample. -/
def c2fs0 : PhysFs := mkBlankFs 2 6

/-- State after `create_file("/a", [6,6,6], 0)` on `c2fs0`. -/
def c2fsA : PhysFs := (create_file pathA [6, 6, 6] 0 1 c2fs0).1

/-- State after additionally writing exactly 512 bytes to `/a`. -/
def c2fsB : PhysFs := (write_file pathA (List.replicate 512 9) none none 2 c2fsA).1

/-- A single live inode occupying the only inode slot (for C9). -/
def c9row : Inode where
  num_data_blocks := 1
  data_block_pointers := (List.replicate 12 0).set 0 1
  single_indirect_block_pointer := 0
  double_indirect_block_pointer := 0
  triple_indirect_block_pointer := 0
  file_name := padName pathA

/-- A filesystem with a full inode table but free data blocks (C9). -/
def c9fs : PhysFs := { mkBlankFs 1 3 with inode_table := [c9row] }

/-- A filesystem whose only inode references block 1, leaving blocks 2
and 3 free (fixture for the C3 witness). -/
def c3fs : PhysFs := { mkBlankFs 1 4 with inode_table := [c9row] }

/-- The metadata record built by `create_file` (its local `md`). -/
def createdMeta (perms : List Nat) (owner now : Nat) : FileMetadata where
  owner := owner
  creation_time := now
  modification_time := now
  access_time := now
  permissions := permsU64 perms

/-- The inode built by `create_file` (its local `ino`). -/
def createdInode (p : List Nat) (d : Nat) : Inode where
  num_data_blocks := 1
  data_block_pointers := (List.replicate 12 0).set 0 d
  single_indirect_block_pointer := 0
  double_indirect_block_pointer := 0
  triple_indirect_block_pointer := 0
  file_name := padName p

/-- A 1 MiB blank filesystem after creating `/a` (fixture for C4). -/
def c4fs1 : PhysFs :=
  (create_file pathA [6, 6, 6] 0 1 (VirtFs.new 1048576)).1

/-- The same filesystem after also creating `/b`: two live inodes. -/
def c4fs2 : PhysFs :=
  (create_file pathB [6, 6, 6] 0 2 c4fs1).1

/-!  #####  Theorems  ##### -/

/-- One step of the `find_empty_data_block` scan succeeds with the first
index satisfying all three freeness conditions; helper characterization
over an arbitrary index range, by induction on its length. -/
theorem findGo_ok_iff (fs : PhysFs) (ignore : Option (List Nat)) :
    ∀ n s b : Nat, (∀ i, s ≤ i → i < s + n → i < fs.data_blocks.length) →
      (findEmptyDataBlockGo fs ignore (List.range' s n) = .ok b ↔
        (s ≤ b ∧ b < s + n ∧ freeAtB fs ignore b = true ∧
          ∀ j, s ≤ j → j < b → freeAtB fs ignore j = false)) := by
  intro n
  induction n with
  | zero =>
    intro s b h
    constructor
    · intro hok
      simp [List.range', findEmptyDataBlockGo] at hok
    · rintro ⟨h1, h2, -⟩
      omega
  | succ n ih =>
    intro s b h
    have hs : s < fs.data_blocks.length := h s le_rfl (by omega)
    rcases hgs : fs.data_blocks.get? s with _ | blk
    · exact absurd (List.get?_eq_none.mp hgs) (by omega)
    have hstep : findEmptyDataBlockGo fs ignore (List.range' s (n + 1)) =
        if isZeroBlock blk && !excludedIn ignore s then
          (if referencedByDirect fs s then
            findEmptyDataBlockGo fs ignore (List.range' (s + 1) n)
          else .ok s)
        else findEmptyDataBlockGo fs ignore (List.range' (s + 1) n) := by
      rw [List.range'_succ, findEmptyDataBlockGo, hgs]
    have hfv : freeAtB fs ignore s =
        (isZeroBlock blk && !referencedByDirect fs s &&
          !excludedIn ignore s) := by
      rw [freeAtB, hgs]
    have hrec := ih (s + 1) b (fun i h1 h2 => h i (by omega) (by omega))
    have hshift : freeAtB fs ignore s = false →
        (findEmptyDataBlockGo fs ignore (List.range' (s + 1) n) = .ok b ↔
          (s ≤ b ∧ b < s + (n + 1) ∧ freeAtB fs ignore b = true ∧
            ∀ j, s ≤ j → j < b → freeAtB fs ignore j = false)) := by
      intro hfalse
      rw [hrec]
      constructor
      · rintro ⟨h1, h2, h3, h4⟩
        refine ⟨by omega, by omega, h3, fun j hj1 hj2 => ?_⟩
        rcases Nat.eq_or_lt_of_le hj1 with rfl | hj
        · exact hfalse
        · exact h4 j hj hj2
      · rintro ⟨h1, h2, h3, h4⟩
        have hbs : b ≠ s := fun hbe => by rw [hbe] at h3; rw [h3] at hfalse; cases hfalse
        exact ⟨by omega, by omega, h3, fun j hj1 hj2 => h4 j (by omega) hj2⟩
    rw [hstep]
    cases hz : isZeroBlock blk <;> cases hx : excludedIn ignore s <;>
      cases hr : referencedByDirect fs s
    · rw [if_neg (by simp)]
      exact hshift (by rw [hfv, hz]; simp)
    · rw [if_neg (by simp)]
      exact hshift (by rw [hfv, hz]; simp)
    · rw [if_neg (by simp)]
      exact hshift (by rw [hfv, hz]; simp)
    · rw [if_neg (by simp)]
      exact hshift (by rw [hfv, hz]; simp)
    · -- zero, not excluded, not referenced: the scan stops here with `s`
      rw [if_pos (by simp), if_neg Bool.false_ne_true]
      have hfree : freeAtB fs ignore s = true := by
        rw [hfv, hz, hx, hr]; rfl
      constructor
      · intro hok
        obtain rfl : s = b := by cases hok; rfl
        exact ⟨le_rfl, by omega, hfree, fun j hj1 hj2 => by omega⟩
      · rintro ⟨h1, h2, h3, h4⟩
        rcases Nat.eq_or_lt_of_le h1 with rfl | hlt
        · rfl
        · exact absurd hfree (by rw [h4 s le_rfl hlt]; exact Bool.false_ne_true)
    · rw [if_pos (by simp), if_pos rfl]
      exact hshift (by rw [hfv, hr]; simp)
    · rw [if_neg (by simp)]
      exact hshift (by rw [hfv, hx]; simp)
    · rw [if_neg (by simp)]
      exact hshift (by rw [hfv, hx]; simp)

/-- Success of the free-block scan, without any bounds assumption: the
returned index is one of the scanned ones and satisfies `freeAtB`. -/
theorem findGo_ok_props (fs : PhysFs) (ignore : Option (List Nat)) :
    ∀ (l : List Nat) (b : Nat), findEmptyDataBlockGo fs ignore l = .ok b →
      b ∈ l ∧ freeAtB fs ignore b = true := by
  intro l
  induction l with
  | nil => intro b h; exact absurd h (by simp [findEmptyDataBlockGo])
  | cons i rest ih =>
    intro b h
    cases hgs : fs.data_blocks.get? i with
    | none =>
      rw [findEmptyDataBlockGo, hgs] at h
      exact absurd h (by simp)
    | some blk =>
      have hred : findEmptyDataBlockGo fs ignore (i :: rest) =
          if isZeroBlock blk && !excludedIn ignore i then
            (if referencedByDirect fs i then
              findEmptyDataBlockGo fs ignore rest
            else .ok i)
          else findEmptyDataBlockGo fs ignore rest := by
        rw [findEmptyDataBlockGo, hgs]
      rw [hred] at h
      have hfv : freeAtB fs ignore i =
          (isZeroBlock blk && !referencedByDirect fs i &&
            !excludedIn ignore i) := by
        rw [freeAtB, hgs]
      by_cases hc : (isZeroBlock blk && !excludedIn ignore i) = true
      · rw [if_pos hc] at h
        by_cases hr : referencedByDirect fs i = true
        · rw [if_pos hr] at h
          obtain ⟨h1, h2⟩ := ih b h
          exact ⟨List.mem_cons_of_mem _ h1, h2⟩
        · rw [if_neg hr] at h
          obtain rfl : i = b := by cases h; rfl
          refine ⟨List.mem_cons_self _ _, ?_⟩
          simp only [Bool.and_eq_true, Bool.not_eq_true'] at hc
          rw [hfv, hc.1, Bool.eq_false_iff.mpr hr, hc.2]
          rfl
      · rw [if_neg hc] at h
        obtain ⟨h1, h2⟩ := ih b h
        exact ⟨List.mem_cons_of_mem _ h1, h2⟩

/-- The free-block scan fails with `DiskFull` exactly when no scanned
index is free, provided every scanned index is inside the data-block
vector (otherwise the source panics instead of reporting `DiskFull`). -/
theorem findGo_err_iff (fs : PhysFs) (ignore : Option (List Nat)) :
    ∀ n s : Nat, (∀ i, s ≤ i → i < s + n → i < fs.data_blocks.length) →
      (findEmptyDataBlockGo fs ignore (List.range' s n) =
          .error (.fsErr .DiskFull) ↔
        ∀ j, s ≤ j → j < s + n → freeAtB fs ignore j = false) := by
  intro n
  induction n with
  | zero =>
    intro s h
    constructor
    · intro _ j hj1 hj2
      omega
    · intro _
      rfl
  | succ n ih =>
    intro s h
    have hs : s < fs.data_blocks.length := h s le_rfl (by omega)
    rcases hgs : fs.data_blocks.get? s with _ | blk
    · exact absurd (List.get?_eq_none.mp hgs) (by omega)
    have hstep : findEmptyDataBlockGo fs ignore (List.range' s (n + 1)) =
        if isZeroBlock blk && !excludedIn ignore s then
          (if referencedByDirect fs s then
            findEmptyDataBlockGo fs ignore (List.range' (s + 1) n)
          else .ok s)
        else findEmptyDataBlockGo fs ignore (List.range' (s + 1) n) := by
      rw [List.range'_succ, findEmptyDataBlockGo, hgs]
    have hfv : freeAtB fs ignore s =
        (isZeroBlock blk && !referencedByDirect fs s &&
          !excludedIn ignore s) := by
      rw [freeAtB, hgs]
    have hrec := ih (s + 1) (fun i h1 h2 => h i (by omega) (by omega))
    have hshift : freeAtB fs ignore s = false →
        (findEmptyDataBlockGo fs ignore (List.range' (s + 1) n) =
            .error (.fsErr .DiskFull) ↔
          ∀ j, s ≤ j → j < s + (n + 1) → freeAtB fs ignore j = false) := by
      intro hfalse
      rw [hrec]
      constructor
      · intro h4 j hj1 hj2
        rcases Nat.eq_or_lt_of_le hj1 with rfl | hj
        · exact hfalse
        · exact h4 j hj (by omega)
      · intro h4 j hj1 hj2
        exact h4 j (by omega) (by omega)
    rw [hstep]
    cases hz : isZeroBlock blk <;> cases hx : excludedIn ignore s <;>
      cases hr : referencedByDirect fs s
    · rw [if_neg (by simp)]
      exact hshift (by rw [hfv, hz]; simp)
    · rw [if_neg (by simp)]
      exact hshift (by rw [hfv, hz]; simp)
    · rw [if_neg (by simp)]
      exact hshift (by rw [hfv, hz]; simp)
    · rw [if_neg (by simp)]
      exact hshift (by rw [hfv, hz]; simp)
    · rw [if_pos (by simp), if_neg Bool.false_ne_true]
      have hfree : freeAtB fs ignore s = true := by
        rw [hfv, hz, hx, hr]; rfl
      constructor
      · intro hok
        exact absurd hok (by simp)
      · intro h4
        exact absurd hfree
          (by rw [h4 s le_rfl (by omega)]; exact Bool.false_ne_true)
    · rw [if_pos (by simp), if_pos rfl]
      exact hshift (by rw [hfv, hr]; simp)
    · rw [if_neg (by simp)]
      exact hshift (by rw [hfv, hx]; simp)
    · rw [if_neg (by simp)]
      exact hshift (by rw [hfv, hx]; simp)

/-- C3: on any filesystem whose superblock block count does not exceed
the data-block vector (otherwise the source indexes out of bounds),
`find_empty_data_block` returns exactly the lowest index in
`1..num_data_blocks` whose block is all-zero, unreferenced by every
inode's direct pointer array and not excluded; it never returns the
reserved index 0; and it fails with `DiskFull` exactly when no such
index exists. -/
theorem claim3_find_empty_data_block (fs : PhysFs)
    (ignore : Option (List Nat))
    (hbound : fs.superblock.num_data_blocks ≤ fs.data_blocks.length) :
    (∀ b, find_empty_data_block fs ignore = .ok b ↔
      (1 ≤ b ∧ b < fs.superblock.num_data_blocks ∧
        freeAtB fs ignore b = true ∧
        ∀ j, 1 ≤ j → j < b → freeAtB fs ignore j = false)) ∧
    find_empty_data_block fs ignore ≠ .ok 0 ∧
    (find_empty_data_block fs ignore = .error (.fsErr .DiskFull) ↔
      ∀ j, 1 ≤ j → j < fs.superblock.num_data_blocks →
        freeAtB fs ignore j = false) := by
  have hbnd : ∀ i, 1 ≤ i → i < 1 + (fs.superblock.num_data_blocks - 1) →
      i < fs.data_blocks.length := fun i h1 h2 => by omega
  have herr := findGo_err_iff fs ignore (fs.superblock.num_data_blocks - 1) 1
    hbnd
  refine ⟨fun b => ?_, ?_, ?_⟩
  · rw [find_empty_data_block,
      findGo_ok_iff fs ignore (fs.superblock.num_data_blocks - 1) 1 b hbnd]
    constructor
    · rintro ⟨h1, h2, h3, h4⟩
      exact ⟨h1, by omega, h3, h4⟩
    · rintro ⟨h1, h2, h3, h4⟩
      exact ⟨h1, by omega, h3, h4⟩
  · intro hc
    rw [find_empty_data_block] at hc
    obtain ⟨h1, -, -, -⟩ :=
      (findGo_ok_iff fs ignore (fs.superblock.num_data_blocks - 1) 1 0
        hbnd).mp hc
    omega
  · rw [find_empty_data_block, herr]
    constructor
    · intro h4 j hj1 hj2
      exact h4 j hj1 (by omega)
    · intro h4 j hj1 hj2
      exact h4 j hj1 (by omega)

/-- The C3 theorem instantiated at the fixture `c3fs` (one live inode
holding block 1; blocks 2 and 3 zero and unreferenced): the scan skips
the referenced block 1 and returns 2. -/
theorem claim3_witness :
    c3fs.superblock.num_data_blocks ≤ c3fs.data_blocks.length ∧
    find_empty_data_block c3fs none = .ok 2 ∧
    freeAtB c3fs none 2 = true ∧ freeAtB c3fs none 1 = false := by
  have h := (claim3_find_empty_data_block c3fs none (by decide)).1 2
  have hfind : find_empty_data_block c3fs none = .ok 2 := by decide
  obtain ⟨-, -, h3, h4⟩ := h.mp hfind
  exact ⟨by decide, hfind, h3, h4 1 le_rfl (by norm_num)⟩

/-- Inverting a successful `find_inode_by_name`: the name fits, the
returned inode carries the zero-padded name, and it is in the table. -/
theorem find_inode_by_name_ok {fs : PhysFs} {p : List Nat} {ino : Inode}
    (h : find_inode_by_name fs p = .ok ino) :
    p.length ≤ 384 ∧ ino.file_name = padName p ∧ ino ∈ fs.inode_table := by
  rw [find_inode_by_name] at h
  by_cases hl : p.length ≤ 384
  · rw [if_pos hl] at h
    cases hf : fs.inode_table.find? (fun r => r.file_name == padName p) with
    | none => rw [hf] at h; exact absurd h (by simp)
    | some r =>
      rw [hf] at h
      obtain rfl : r = ino := by cases h; rfl
      have h1 := List.find?_some hf
      have h2 := List.mem_of_find?_eq_some hf
      exact ⟨hl, by simpa using h1, h2⟩
  · rw [if_neg hl] at h
    exact absurd h (by simp)

/-- The block-zeroing loop of `delete` never touches the inode table. -/
theorem deleteZeroLoop_table (dp : List Nat) :
    ∀ (l : List Nat) (fs : PhysFs),
      (deleteZeroLoop dp fs l).1.inode_table = fs.inode_table := by
  intro l
  induction l with
  | nil => intro fs; rfl
  | cons i rest ih =>
    intro fs
    rw [deleteZeroLoop]
    cases dp.get? i with
    | none => rfl
    | some ptr =>
      show (match fs.data_blocks.get? ptr with
        | none => (fs, Except.error RunErr.panicked)
        | some _ =>
          deleteZeroLoop dp (setBlock fs ptr zeroBlock) rest).1.inode_table =
        fs.inode_table
      cases fs.data_blocks.get? ptr with
      | none => rfl
      | some b => exact ih (setBlock fs ptr zeroBlock)

/-- C7: after a successful `delete(p)`, the file no longer exists,
`read_file(p)` fails with `FileNotFound`, and no `list` result contains
the (zero-padded) name `p` any more. -/
theorem claim7_delete_semantics (fs fs2 : PhysFs) (p : List Nat)
    (hdel : VirtFs.delete p fs = (fs2, .ok ())) :
    VirtFs.existsFile p fs2 = false ∧
    read_file fs2 p = .error (.fsErr .FileNotFound) ∧
    ∀ q, padName p ∉ VirtFs.list q fs2 := by
  cases hf : find_inode_by_name fs p with
  | error e =>
    rw [VirtFs.delete, hf] at hdel
    exact absurd hdel (by simp)
  | ok ino =>
    simp only [VirtFs.delete, hf] at hdel
    rcases hz : deleteZeroLoop ino.data_block_pointers fs
        (List.range ino.num_data_blocks) with ⟨fs1, rz⟩
    rw [hz] at hdel
    cases rz with
    | error e => exact absurd hdel (by simp)
    | ok u =>
      cases u
      have hfs2 : fs2 = { fs1 with
          inode_table :=
            List.filter (fun r => r.file_name != ino.file_name)
              fs1.inode_table } :=
        (congrArg Prod.fst hdel).symm
      obtain ⟨hlen, hname, -⟩ := find_inode_by_name_ok hf
      have hnofind : ∀ r ∈ fs2.inode_table,
          (r.file_name == padName p) = false := by
        intro r hr
        rw [hfs2] at hr
        have hmem := List.mem_filter.mp hr
        have hne : r.file_name ≠ padName p := by
          have h2 := hmem.2
          rw [hname] at h2
          simpa [bne] using h2
        simpa using hne
      have hnone : fs2.inode_table.find?
          (fun r => r.file_name == padName p) = none :=
        List.find?_eq_none.mpr
          (fun x hx => by rw [hnofind x hx]; exact Bool.false_ne_true)
      have hfind2 : find_inode_by_name fs2 p =
          .error (.fsErr .FileNotFound) := by
        rw [find_inode_by_name, if_pos hlen, hnone]
      refine ⟨?_, ?_, ?_⟩
      · rw [VirtFs.existsFile, hfind2]
      · simp only [read_file, hfind2]
        rfl
      · intro q hq
        rw [VirtFs.list] at hq
        obtain ⟨hmem, -⟩ := List.mem_filter.mp hq
        obtain ⟨r, hr, hrn⟩ := List.mem_map.mp hmem
        have hfr := hnofind r hr
        rw [hrn] at hfr
        simp at hfr

/-- The C7 theorem instantiated at the fixture `c3fs`: deleting `/a`
makes it unfindable, unreadable and unlisted. -/
theorem claim7_witness :
    VirtFs.existsFile pathA (VirtFs.delete pathA c3fs).1 = false ∧
    read_file (VirtFs.delete pathA c3fs).1 pathA =
      .error (.fsErr .FileNotFound) ∧
    padName pathA ∉ VirtFs.list pathA (VirtFs.delete pathA c3fs).1 := by
  have h := claim7_delete_semantics c3fs (VirtFs.delete pathA c3fs).1 pathA
    (by decide)
  exact ⟨h.1, h.2.1, h.2.2 pathA⟩

/-- C10: a handle with the Read flag whose position is at most the
padded file length reads `min(|buf|, len - pos)` bytes, splices exactly
that many into the buffer, and advances the position by the same count
(which never exceeds the padded length, so the `usize` subtraction that
the position bound protects cannot underflow); `seek` itself stores any
position unchecked. -/
theorem claim10_read_position_bound (fs : PhysFs) (h : FileHandle)
    (buf data : List Nat) (md : FileMetadata)
    (hflag : h.flags &&& FileFlags.Read ≠ 0)
    (hread : read_file fs h.file_name = .ok (data, md))
    (hpos : h.file_pos ≤ data.length) :
    FileHandle.read fs h buf =
      .ok (min buf.length (data.length - h.file_pos),
        (data.drop h.file_pos).take (min buf.length (data.length - h.file_pos))
          ++ buf.drop (min buf.length (data.length - h.file_pos)),
        { h with file_pos :=
            h.file_pos + min buf.length (data.length - h.file_pos) }) ∧
    min buf.length (data.length - h.file_pos) ≤ buf.length ∧
    h.file_pos + min buf.length (data.length - h.file_pos) ≤ data.length ∧
    ∀ p0, FileHandle.seek h p0 = .ok (p0, { h with file_pos := p0 }) := by
  refine ⟨?_, Nat.min_le_left _ _, by omega, fun p0 => rfl⟩
  simp only [FileHandle.read, if_neg hflag, hread, if_pos hpos]

/-- The C10 theorem instantiated at the fixture `c3fs` and a fresh
read-only handle on `/a` (whose padded data is empty). -/
theorem claim10_witness :
    FileHandle.read c3fs ⟨pathA, 1, 0⟩ [0, 0] =
      .ok (0, [0, 0], ⟨pathA, 1, 0⟩) := by
  have h := claim10_read_position_bound c3fs ⟨pathA, 1, 0⟩ [0, 0] []
    (decodeMetadata zeroBlock) (by decide) (by decide) (by decide)
  exact h.1.trans (by decide)

/-- Staging lemma for `read_file`. -/
theorem read_file_split {fs : PhysFs} {p : List Nat} {ino : Inode}
    {mb : DataBlock} {addrs data : List Nat}
    (h0 : find_inode_by_name fs p = .ok ino)
    (h1 : getBlock fs (ino.data_block_pointers.getD 0 0) = .ok mb)
    (h2 : get_all_block_addresses fs ino = .ok addrs)
    (h3 : readBlocksLoop fs addrs (List.range' 1 (ino.num_data_blocks - 1)) =
        .ok data) :
    read_file fs p = .ok (data, decodeMetadata mb) := by
  simp only [read_file, h0, h1, h2, h3, Except.bind, bind, pure, Except.pure]

/-- The 8 little-endian bytes of a u64 are 8 bytes long. -/
theorem u64ToLe_length (n : Nat) : (u64ToLe n).length = 8 := rfl

/-- An encoded metadata block is exactly one block long. -/
theorem encodeMetadata_length (m : FileMetadata) :
    (encodeMetadata m).length = 512 := rfl

/-- Reading back the 8 little-endian bytes of a u64 below `2^64`
recovers the value, whatever follows them. -/
theorem leU64_u64ToLe_append (n : Nat) (t : List Nat) (h : n < 2 ^ 64) :
    leU64 (u64ToLe n ++ t) = n := by
  have h2 : n < 18446744073709551616 := h
  show n / 1 % 256 + 256 * (n / 256 % 256 + 256 * (n / 65536 % 256 +
    256 * (n / 16777216 % 256 + 256 * (n / 4294967296 % 256 +
    256 * (n / 1099511627776 % 256 + 256 * (n / 281474976710656 % 256 +
    256 * (n / 72057594037927936 % 256 + 256 * 0))))))) = n
  omega

/-- Skip one 8-byte field when dropping into concatenated fields. -/
theorem drop_append_skip8 (x l : List Nat) (n m : Nat) (hx : x.length = 8)
    (hn : n = 8 + m) : (x ++ l).drop n = l.drop m := by
  subst hn
  rw [List.drop_append_eq_append_drop, List.drop_eq_nil_of_le (by omega),
    hx, Nat.add_sub_cancel_left, List.nil_append]

/-- Decoding an encoded metadata block (with any trailing bytes)
recovers the owner. -/
theorem decodeMetadata_append_owner (m : FileMetadata) (t : List Nat)
    (h : m.owner < 2 ^ 64) :
    (decodeMetadata (encodeMetadata m ++ t)).owner = m.owner := by
  show leU64At (encodeMetadata m ++ t) 0 = m.owner
  rw [leU64At, List.drop_zero, encodeMetadata]
  simp only [List.append_assoc]
  exact leU64_u64ToLe_append _ _ h

/-- Decoding an encoded metadata block (with any trailing bytes)
recovers the packed permissions. -/
theorem decodeMetadata_append_perms (m : FileMetadata) (t : List Nat)
    (h : m.permissions < 2 ^ 64) :
    (decodeMetadata (encodeMetadata m ++ t)).permissions = m.permissions := by
  show leU64At (encodeMetadata m ++ t) 32 = m.permissions
  rw [leU64At, encodeMetadata]
  simp only [List.append_assoc]
  rw [drop_append_skip8 (u64ToLe m.owner) _ 32 24 (u64ToLe_length _)
      (by norm_num),
    drop_append_skip8 (u64ToLe m.creation_time) _ 24 16 (u64ToLe_length _)
      (by norm_num),
    drop_append_skip8 (u64ToLe m.modification_time) _ 16 8 (u64ToLe_length _)
      (by norm_num),
    drop_append_skip8 (u64ToLe m.access_time) _ 8 0 (u64ToLe_length _)
      (by norm_num),
    List.drop_zero]
  exact leU64_u64ToLe_append _ _ h

/-- Reading the slot just written by `List.set`. -/
theorem get?_set_self {α : Type} (l : List α) (i : Nat) (a : α)
    (h : i < l.length) : (l.set i a).get? i = some a := by
  rw [List.get?_eq_getElem?, List.getElem?_set_self h]

/-- Writing an element satisfying the predicate into a list none of
whose elements satisfies it makes `find?` return exactly that element. -/
theorem find?_set_of_none {α : Type} (p : α → Bool) :
    ∀ (l : List α) (i : Nat) (a : α), (∀ x ∈ l, p x = false) →
      p a = true → i < l.length → (l.set i a).find? p = some a := by
  intro l
  induction l with
  | nil =>
    intro i a h1 h2 h3
    exact absurd h3 (by simp)
  | cons x tail ih =>
    intro i a h1 h2 h3
    cases i with
    | zero =>
      show List.find? p (a :: tail) = some a
      exact List.find?_cons_of_pos _ h2
    | succ j =>
      show List.find? p (x :: tail.set j a) = some a
      rw [List.find?_cons_of_neg _
        (by rw [h1 x (List.mem_cons_self _ _)]; exact Bool.false_ne_true)]
      exact ih j a (fun y hy => h1 y (List.mem_cons_of_mem _ hy)) h2
        (by simpa using h3)

/-- A successful inode scan returns an index inside the table. -/
theorem findEmptyInodeGo_lt (fs : PhysFs) :
    ∀ (l : List Nat) (i : Nat), findEmptyInodeGo fs l = .ok i →
      i < fs.inode_table.length := by
  intro l
  induction l with
  | nil => intro i h; exact absurd h (by simp [findEmptyInodeGo])
  | cons j rest ih =>
    intro i h
    cases hg : fs.inode_table.get? j with
    | none =>
      rw [findEmptyInodeGo, hg] at h
      exact absurd h (by simp)
    | some r =>
      have hred : findEmptyInodeGo fs (j :: rest) =
          if r.num_data_blocks = 0 then .ok j
          else findEmptyInodeGo fs rest := by
        rw [findEmptyInodeGo, hg]
      rw [hred] at h
      by_cases hz : r.num_data_blocks = 0
      · rw [if_pos hz] at h
        obtain rfl : j = i := by cases h; rfl
        obtain ⟨hlt, -⟩ := List.get?_eq_some.mp hg
        exact hlt
      · rw [if_neg hz] at h
        exact ih i h

/-- The inode scan only looks at the inode table. -/
theorem findEmptyInodeGo_congr (fs fs2 : PhysFs)
    (h : fs.inode_table = fs2.inode_table) :
    ∀ l, findEmptyInodeGo fs l = findEmptyInodeGo fs2 l := by
  intro l
  induction l with
  | nil => rfl
  | cons j rest ih =>
    rw [findEmptyInodeGo, findEmptyInodeGo, h, ih]

/-- `find_empty_inode` only looks at the inode table and superblock. -/
theorem find_empty_inode_congr (fs fs2 : PhysFs)
    (ht : fs.inode_table = fs2.inode_table)
    (hs : fs.superblock = fs2.superblock) :
    find_empty_inode fs = find_empty_inode fs2 := by
  rw [find_empty_inode, find_empty_inode, hs, findEmptyInodeGo_congr fs fs2 ht]

/-- Inverting a successful `write_to_data_block`. -/
theorem write_to_data_block_ok_inv {d : Nat} {data : List Nat}
    {fs fs2 : PhysFs} (h : write_to_data_block d data fs = (fs2, .ok ())) :
    ∃ b, fs.data_blocks.get? d = some b ∧ d < fs.superblock.num_data_blocks ∧
      data.length ≤ 512 ∧ fs2 = setBlock fs d (data ++ b.drop data.length) := by
  by_cases hd : fs.superblock.num_data_blocks ≤ d
  · rw [write_to_data_block, if_pos hd] at h
    exact absurd h (by simp)
  · cases hg : fs.data_blocks.get? d with
    | none =>
      rw [write_to_data_block, if_neg hd, hg] at h
      exact absurd h (by simp)
    | some b =>
      simp only [write_to_data_block, if_neg hd, hg] at h
      by_cases hlen : data.length ≤ 512
      · rw [if_pos hlen] at h
        exact ⟨b, rfl, by omega, hlen, (congrArg Prod.fst h).symm⟩
      · rw [if_neg hlen] at h
        exact absurd h (by simp)

/-- Inverting a successful `create_file`: the allocated metadata block,
its old content, the claimed inode slot, and the resulting state. -/
theorem create_file_ok_inv {p perms : List Nat} {owner now : Nat}
    {fs fs1 : PhysFs} (h : create_file p perms owner now fs = (fs1, .ok ())) :
    ∃ d b idx,
      find_empty_data_block fs none = .ok d ∧
      p.length ≤ 384 ∧
      fs.data_blocks.get? d = some b ∧
      d < fs.superblock.num_data_blocks ∧
      idx < fs.inode_table.length ∧
      find_empty_inode fs = .ok idx ∧
      fs1 = { fs with
        data_blocks := fs.data_blocks.set d
          (encodeMetadata (createdMeta perms owner now) ++ b.drop 512)
        inode_table := fs.inode_table.set idx (createdInode p d) } := by
  cases hfd : find_empty_data_block fs none with
  | error e =>
    rw [create_file, hfd] at h
    exact absurd h (by simp)
  | ok d =>
    simp only [create_file, hfd] at h
    by_cases hlen : p.length ≤ 384
    case neg =>
      rw [if_neg hlen] at h
      exact absurd h (by simp)
    rw [if_pos hlen] at h
    rw [show ({
        owner := owner,
        creation_time := now,
        modification_time := now,
        access_time := now,
        permissions := permsU64 perms } : FileMetadata) =
        createdMeta perms owner now from rfl] at h
    rcases hw : write_to_data_block d
        (encodeMetadata (createdMeta perms owner now)) fs with ⟨fsx, rx⟩
    rw [hw] at h
    cases rx with
    | error e => exact absurd h (by simp)
    | ok u =>
      cases u
      replace h : create_inode
          { num_data_blocks := 1,
            data_block_pointers := (List.replicate 12 0).set 0 d,
            single_indirect_block_pointer := 0,
            double_indirect_block_pointer := 0,
            triple_indirect_block_pointer := 0,
            file_name := padName p } fsx = (fs1, Except.ok ()) := h
      rw [show ({
          num_data_blocks := 1,
          data_block_pointers := (List.replicate 12 0).set 0 d,
          single_indirect_block_pointer := 0,
          double_indirect_block_pointer := 0,
          triple_indirect_block_pointer := 0,
          file_name := padName p } : Inode) = createdInode p d from rfl] at h
      obtain ⟨b, hg, hdb, -, hfsx⟩ := write_to_data_block_ok_inv hw
      have ht : fsx.inode_table = fs.inode_table := by rw [hfsx]; rfl
      have hsup : fsx.superblock = fs.superblock := by rw [hfsx]; rfl
      rw [create_inode, find_empty_inode_congr fsx fs ht hsup] at h
      cases hfi : find_empty_inode fs with
      | error e => rw [hfi] at h; exact absurd h (by simp)
      | ok idx =>
        rw [hfi] at h
        have hfs1 : fs1 = { fsx with
            inode_table := fsx.inode_table.set idx (createdInode p d) } :=
          (congrArg Prod.fst h).symm
        have hfi2 := hfi
        rw [find_empty_inode] at hfi2
        refine ⟨d, b, idx, rfl, hlen, hg, hdb,
          findEmptyInodeGo_lt fs _ idx hfi2, rfl, ?_⟩
        rw [hfs1, hfsx, encodeMetadata_length]
        rfl

/-- C6: opening an absent path without the Create flag fails with
`FileNotFound`; with Create it creates the file (permissions `[6,6,6]`,
owner 0, readable back through `get_perms` and `get_owner`) and returns
a handle positioned at 0. -/
theorem claim6_open_create (fs : PhysFs) (p : List Nat) (flags now : Nat)
    (habs : find_inode_by_name fs p = .error (.fsErr .FileNotFound)) :
    (flags &&& FileFlags.Create = 0 →
      VirtFs.openFile p flags now fs = (fs, .error (.fsErr .FileNotFound))) ∧
    (flags &&& FileFlags.Create ≠ 0 →
      ∀ fs1 : PhysFs, create_file p [6, 6, 6] 0 now fs = (fs1, .ok ()) →
        VirtFs.openFile p flags now fs = (fs1, .ok ⟨p, flags, 0⟩) ∧
        get_perms fs1 p = .ok [6, 6, 6] ∧ get_owner fs1 p = .ok 0) := by
  have hreadf : read_file fs p = .error (.fsErr .FileNotFound) := by
    simp only [read_file, habs]
    rfl
  constructor
  · intro hc0
    simp only [VirtFs.openFile, hreadf, if_neg (not_not_intro hc0)]
  · intro hc fs1 hcr
    obtain ⟨d, b, idx, hfd, hlen, hg, hdb, hidx, hfi, hfs1⟩ :=
      create_file_ok_inv hcr
    have hfd2 := hfd
    rw [find_empty_data_block] at hfd2
    have hd1 : 1 ≤ d :=
      (List.mem_range'_1.mp (findGo_ok_props fs none _ d hfd2).1).1
    have hnone : ∀ x ∈ fs.inode_table,
        (fun r => r.file_name == padName p) x = false := by
      intro x hx
      have h2 := habs
      rw [find_inode_by_name, if_pos hlen] at h2
      cases hf2 : fs.inode_table.find?
          (fun r => r.file_name == padName p) with
      | some r => rw [hf2] at h2; exact absurd h2 (by simp)
      | none => simpa using List.find?_eq_none.mp hf2 x hx
    have htab : fs1.inode_table =
        fs.inode_table.set idx (createdInode p d) := by rw [hfs1]
    have hfind1 : find_inode_by_name fs1 p = .ok (createdInode p d) := by
      rw [find_inode_by_name, if_pos hlen, htab,
        find?_set_of_none _ fs.inode_table idx (createdInode p d) hnone
          (by simp [createdInode]) hidx]
    have hdbs : fs1.data_blocks = fs.data_blocks.set d
        (encodeMetadata (createdMeta [6, 6, 6] 0 now) ++ b.drop 512) := by
      rw [hfs1]
    have hdlen : d < fs.data_blocks.length :=
      (List.get?_eq_some.mp hg).choose
    have hblk : getBlock fs1
        ((createdInode p d).data_block_pointers.getD 0 0) =
        .ok (encodeMetadata (createdMeta [6, 6, 6] 0 now) ++ b.drop 512) := by
      rw [show (createdInode p d).data_block_pointers.getD 0 0 = d from rfl,
        getBlock, hdbs, get?_set_self _ _ _ hdlen]
    have hperm : get_perms fs1 p = .ok [6, 6, 6] := by
      simp only [get_perms, hfind1, hblk, Except.bind, bind, pure,
        Except.pure]
      rw [decodeMetadata_append_perms (createdMeta [6, 6, 6] 0 now)
        (b.drop 512) (show permsU64 [6, 6, 6] < 2 ^ 64 by decide)]
      norm_num [createdMeta, permsU64]
    have howner : get_owner fs1 p = .ok 0 := by
      simp only [get_owner, hfind1, hblk, Except.bind, bind, pure,
        Except.pure]
      rw [decodeMetadata_append_owner (createdMeta [6, 6, 6] 0 now)
        (b.drop 512) (show (0 : Nat) < 2 ^ 64 by decide)]
      rfl
    have hd0 : d ≠ 0 := by omega
    have hall : get_all_block_addresses fs1 (createdInode p d) =
        .ok [d] := by
      simp only [get_all_block_addresses, createdInode,
        show ((List.replicate 12 0).set 0 d : List Nat) =
          d :: List.replicate 11 0 from rfl]
      simp [hd0, Except.bind, bind, pure, Except.pure,
        show (List.replicate 11 0 : List Nat).filter
          (fun x => decide (x ≠ 0)) = [] from by decide]
    have hread1 : read_file fs1 p =
        .ok ([], decodeMetadata (encodeMetadata
          (createdMeta [6, 6, 6] 0 now) ++ b.drop 512)) :=
      read_file_split hfind1 hblk hall rfl
    have hopen : VirtFs.openFile p flags now fs = afterOpen p flags fs1 := by
      simp only [VirtFs.openFile, hreadf, if_pos hc, hcr]
    have hafter : afterOpen p flags fs1 = (fs1, .ok ⟨p, flags, 0⟩) := by
      by_cases hap : flags &&& FileFlags.Append ≠ 0
      · rw [afterOpen, if_pos hap, hread1]
        rfl
      · rw [afterOpen, if_neg hap]
    exact ⟨hopen.trans hafter, hperm, howner⟩

/-- The C6 theorem instantiated on the blank fixture `c2fs0` and the
absent path `/b` with flags Read|Create (9). -/
theorem claim6_witness :
    VirtFs.openFile pathB 9 1 c2fs0 =
      ((create_file pathB [6, 6, 6] 0 1 c2fs0).1, .ok ⟨pathB, 9, 0⟩) ∧
    get_perms (create_file pathB [6, 6, 6] 0 1 c2fs0).1 pathB =
      .ok [6, 6, 6] ∧
    get_owner (create_file pathB [6, 6, 6] 0 1 c2fs0).1 pathB = .ok 0 :=
  (claim6_open_create c2fs0 pathB 9 1 (by decide)).2 (by decide)
    (create_file pathB [6, 6, 6] 0 1 c2fs0).1 (by decide)

/-- C5 (code bug): `create_blank` (`VirtFs::new`) builds a superblock
with 1024 inodes, inode table size 1024 and `(size/512) - 1024 - 1`
data blocks, and an inode table of length `num_inodes`; but the
in-memory data-block vector is hard-coded to 1024 entries, so at
`size_bytes = 2^20` its length is 1024 while the superblock says 1023,
contradicting the claimed `length = num_data_blocks`. -/
theorem claim5_blank_geometry :
    (VirtFs.new 1048576).superblock.num_inodes = 1024 ∧
    (VirtFs.new 1048576).superblock.inode_table_size = 1024 ∧
    (VirtFs.new 1048576).superblock.num_data_blocks = 1048576 / 512 - 1024 - 1 ∧
    (VirtFs.new 1048576).inode_table.length =
      (VirtFs.new 1048576).superblock.num_inodes ∧
    (VirtFs.new 1048576).data_blocks.length = 1024 ∧
    (VirtFs.new 1048576).data_blocks.length ≠
      (VirtFs.new 1048576).superblock.num_data_blocks := by
  refine ⟨by decide, by decide, by decide, by decide, by decide, by decide⟩

/-- C8 (code bug): `FileHandle::poll` returns the NEGATION of the
corresponding flag: a handle opened with the Read flag polls Read as
`false`, and in general `poll(Read)` is true exactly when the Read bit
is clear (likewise for Write), contrary to the claim. -/
theorem claim8_poll_inverted :
    FileHandle.poll ⟨pathA, FileFlags.Read, 0⟩ .Read = false ∧
    FileHandle.poll ⟨pathA, FileFlags.Write, 0⟩ .Write = false ∧
    FileHandle.poll ⟨pathA, FileFlags.Write, 0⟩ .Read = true ∧
    ∀ h : FileHandle,
      (FileHandle.poll h .Read = true ↔ h.flags &&& FileFlags.Read = 0) ∧
      (FileHandle.poll h .Write = true ↔ h.flags &&& FileFlags.Write = 0) := by
  refine ⟨by decide, by decide, by decide, fun h => ⟨?_, ?_⟩⟩ <;>
    simp [FileHandle.poll, bne]

/-- Staging lemma for `write_file`: the result of a run in which every
stage succeeds, phrased through one equation per stage. -/
theorem write_file_split (p data0 : List Nat) (perms : Option (List Nat))
    (owner : Option Nat) (now : Nat) (fs : PhysFs) {data : List Nat} {n : Nat}
    {ino : Inode} {mb : DataBlock} {fs1 : PhysFs} {a : Nat} {ex : List Nat}
    {ptrs : List Nat} {fs2 fs3 : PhysFs} {res : StRes Unit}
    (hdata : data0 ++ List.replicate (512 - data0.length % 512) 0 = data)
    (hn : ceilDiv512 data.length = n)
    (h0 : find_inode_by_name fs p = .ok ino)
    (h1 : getBlock fs (ino.data_block_pointers.getD 0 0) = .ok mb)
    (h2 : write_to_data_block (ino.data_block_pointers.getD 0 0)
        (encodeMetadata (writeFileMeta mb perms owner now)) fs = (fs1, .ok ()))
    (h3 : get_all_block_addresses fs1 ino = .ok (a :: ex))
    (h4 : allocLoop fs1 ex ((List.replicate n 0).set 0
        (ino.data_block_pointers.getD 0 0)) (List.range n) = .ok ptrs)
    (h5 : writeChunksLoop data ptrs fs1 (List.range n) = (fs2, .ok ()))
    (h6 : update_inode { ino with num_data_blocks := ptrs.length + 1 } fs2 =
        (fs3, .ok ()))
    (h7 : (match wireLoop ptrs (List.range ptrs.length)
          { ino with num_data_blocks := ptrs.length + 1 } fs3 with
        | (fs4, .error e) => (fs4, .error e)
        | (fs4, .ok ui) => update_inode ui fs4) = res) :
    write_file p data0 perms owner now fs = res := by
  simp only [write_file, hdata, hn, h0, h1, h2, h3, h4, h5, h6]
  exact h7

/-- One successful step of the chunk-writing loop. -/
theorem writeChunksLoop_cons {data ptrs : List Nat} {fs fs1 : PhysFs}
    {i : Nat} {rest : List Nat}
    (h : write_to_data_block (ptrs.getD i 0) ((data.drop (i * 512)).take 512)
        fs = (fs1, .ok ())) :
    writeChunksLoop data ptrs fs (i :: rest) =
      writeChunksLoop data ptrs fs1 rest := by
  simp only [writeChunksLoop, h]

/-- One successful step of the block-reading loop of `read_file`. -/
theorem readBlocksLoop_cons {fs : PhysFs} {addrs : List Nat} (i a : Nat)
    {b tail : List Nat} {rest : List Nat}
    (h1 : addrs.get? i = some a) (h2 : getBlock fs a = .ok b)
    (h3 : readBlocksLoop fs addrs rest = .ok tail) :
    readBlocksLoop fs addrs (i :: rest) = .ok (b ++ tail) := by
  simp only [readBlocksLoop, h1, h2, h3, Except.bind, bind, pure, Except.pure]

/-- A write of a full-length chunk into a 512-byte block replaces the
block. -/
theorem write_to_data_block_full (fs : PhysFs) (d : Nat) (data b : List Nat)
    (hd : d < fs.superblock.num_data_blocks)
    (hget : fs.data_blocks.get? d = some b)
    (hlen : data.length = 512) (hblen : b.length = 512) :
    write_to_data_block d data fs = (setBlock fs d data, .ok ()) := by
  have hnle : ¬ fs.superblock.num_data_blocks ≤ d := by omega
  have hdrop : b.drop data.length = [] := by
    rw [hlen, ← hblen, List.drop_length]
  simp only [write_to_data_block, if_neg hnle, hget, hdrop, List.append_nil,
    if_pos (show data.length ≤ 512 by omega)]

/-- Every 512-byte slice of `c1data` below the final one is all ones. -/
theorem c1chunk_ones (k : Nat) (h : k + 512 ≤ 6145) :
    (c1data.drop k).take 512 = onesChunk := by
  have h1 : c1data.drop k =
      List.replicate (6145 - k) 1 ++ List.replicate 511 0 := by
    rw [c1data, c1bigB, List.drop_append_eq_append_drop, List.drop_replicate,
      List.length_replicate]
    have h2 : k - 6145 = 0 := by omega
    rw [h2, List.drop_zero]
  rw [h1, List.take_append_eq_append_take, List.take_replicate,
    List.length_replicate]
  have h3 : min 512 (6145 - k) = 512 := by omega
  have h4 : 512 - (6145 - k) = 0 := by omega
  rw [h3, h4, List.take_zero, List.append_nil, onesChunk]

/-- The final 512-byte slice of `c1data`: one 1-byte, then padding. -/
theorem c1chunk_last : (c1data.drop (12 * 512)).take 512 = lastChunk := by
  have h1 : c1data.drop (12 * 512) =
      List.replicate 1 1 ++ List.replicate 511 0 := by
    rw [c1data, c1bigB, List.drop_append_eq_append_drop, List.drop_replicate,
      List.length_replicate]
    norm_num
  rw [h1, List.take_append_eq_append_take, List.take_replicate,
    List.length_replicate, List.take_replicate]
  norm_num [lastChunk, List.replicate_one, List.singleton_append]

/-- Skip one 512-byte block when indexing into concatenated blocks. -/
theorem getElem?_append_skip (b l : List Nat) (n m : Nat)
    (hb : b.length = 512) (hn : n = 512 + m) : (b ++ l)[n]? = l[m]? := by
  subst hn
  rw [List.getElem?_append, if_neg (by rw [hb]; omega), hb,
    Nat.add_sub_cancel_left]

/-- One chunk-writing step, with the chunk value and target block
factored out. -/
theorem writeChunksLoop_step (data ptrs : List Nat) (i d : Nat)
    {fs fs1 : PhysFs} {rest : List Nat} {c : List Nat}
    (hc : (data.drop (i * 512)).take 512 = c)
    (hp : ptrs.getD i 0 = d)
    (h : write_to_data_block d c fs = (fs1, .ok ())) :
    writeChunksLoop data ptrs fs (i :: rest) =
      writeChunksLoop data ptrs fs1 rest := by
  simp only [writeChunksLoop, hc, hp, h]

/-- C1 (counterexample): on a blank 2-inode, 17-block filesystem,
`create_file("/a", [6,6,6], 0)` followed by `write_file("/a", B)` with
`B` the 6145-byte all-ones payload (more than `12 * 512` bytes) both
succeed, yet the first `|B|` bytes returned by `read_file("/a")` differ
from `B`: byte 5632 reads back as 15, because the single-indirect
wiring of `write_file` stores stale garbage pointers (including a
self-pointer to the indirect block) in slots 0 and 1, ahead of the real
data pointers. -/
theorem claim1_write_read_counterexample :
    create_file pathA [6, 6, 6] 0 1 c1fs0 = (c1fsA, .ok ()) ∧
    write_file pathA c1bigB none none 2 c1fsA = (c1fsB, .ok ()) ∧
    Except.map (fun r => r.1.take c1bigB.length) (read_file c1fsB pathA) ≠
      Except.ok c1bigB := by
  have honesLen : onesChunk.length = 512 := by decide
  have hindLen : indBlock.length = 512 := by decide
  refine ⟨by decide, ?_, ?_⟩
  · -- the write, staged
    have hchunks : writeChunksLoop c1data c1ptrs c1fsW1 (List.range 13) =
        (c1fsW2, .ok ()) := by
      rw [show List.range 13 = [0, 1, 2, 3, 4, 5, 6, 7, 8, 9, 10, 11, 12]
        from rfl]
      rw [writeChunksLoop_step c1data c1ptrs 0 2 (c1chunk_ones (0 * 512) (by norm_num))
          rfl
          (write_to_data_block_full c1fsW1 2 onesChunk zeroBlock
            (by decide) (by decide) honesLen (by decide))]
      rw [writeChunksLoop_step c1data c1ptrs 1 3 (c1chunk_ones (1 * 512) (by norm_num))
          rfl
          (write_to_data_block_full (setBlock c1fsW1 2 onesChunk) 3 onesChunk zeroBlock
            (by decide) (by decide) honesLen (by decide))]
      rw [writeChunksLoop_step c1data c1ptrs 2 4 (c1chunk_ones (2 * 512) (by norm_num))
          rfl
          (write_to_data_block_full (setBlock (setBlock c1fsW1 2 onesChunk) 3 onesChunk) 4 onesChunk zeroBlock
            (by decide) (by decide) honesLen (by decide))]
      rw [writeChunksLoop_step c1data c1ptrs 3 5 (c1chunk_ones (3 * 512) (by norm_num))
          rfl
          (write_to_data_block_full (setBlock (setBlock (setBlock c1fsW1 2 onesChunk) 3 onesChunk) 4 onesChunk) 5 onesChunk zeroBlock
            (by decide) (by decide) honesLen (by decide))]
      rw [writeChunksLoop_step c1data c1ptrs 4 6 (c1chunk_ones (4 * 512) (by norm_num))
          rfl
          (write_to_data_block_full (setBlock (setBlock (setBlock (setBlock c1fsW1 2 onesChunk) 3 onesChunk) 4 onesChunk) 5 onesChunk) 6 onesChunk zeroBlock
            (by decide) (by decide) honesLen (by decide))]
      rw [writeChunksLoop_step c1data c1ptrs 5 7 (c1chunk_ones (5 * 512) (by norm_num))
          rfl
          (write_to_data_block_full (setBlock (setBlock (setBlock (setBlock (setBlock c1fsW1 2 onesChunk) 3 onesChunk) 4 onesChunk) 5 onesChunk) 6 onesChunk) 7 onesChunk zeroBlock
            (by decide) (by decide) honesLen (by decide))]
      rw [writeChunksLoop_step c1data c1ptrs 6 8 (c1chunk_ones (6 * 512) (by norm_num))
          rfl
          (write_to_data_block_full (setBlock (setBlock (setBlock (setBlock (setBlock (setBlock c1fsW1 2 onesChunk) 3 onesChunk) 4 onesChunk) 5 onesChunk) 6 onesChunk) 7 onesChunk) 8 onesChunk zeroBlock
            (by decide) (by decide) honesLen (by decide))]
      rw [writeChunksLoop_step c1data c1ptrs 7 9 (c1chunk_ones (7 * 512) (by norm_num))
          rfl
          (write_to_data_block_full (setBlock (setBlock (setBlock (setBlock (setBlock (setBlock (setBlock c1fsW1 2 onesChunk) 3 onesChunk) 4 onesChunk) 5 onesChunk) 6 onesChunk) 7 onesChunk) 8 onesChunk) 9 onesChunk zeroBlock
            (by decide) (by decide) honesLen (by decide))]
      rw [writeChunksLoop_step c1data c1ptrs 8 10 (c1chunk_ones (8 * 512) (by norm_num))
          rfl
          (write_to_data_block_full (setBlock (setBlock (setBlock (setBlock (setBlock (setBlock (setBlock (setBlock c1fsW1 2 onesChunk) 3 onesChunk) 4 onesChunk) 5 onesChunk) 6 onesChunk) 7 onesChunk) 8 onesChunk) 9 onesChunk) 10 onesChunk zeroBlock
            (by decide) (by decide) honesLen (by decide))]
      rw [writeChunksLoop_step c1data c1ptrs 9 11 (c1chunk_ones (9 * 512) (by norm_num))
          rfl
          (write_to_data_block_full (setBlock (setBlock (setBlock (setBlock (setBlock (setBlock (setBlock (setBlock (setBlock c1fsW1 2 onesChunk) 3 onesChunk) 4 onesChunk) 5 onesChunk) 6 onesChunk) 7 onesChunk) 8 onesChunk) 9 onesChunk) 10 onesChunk) 11 onesChunk zeroBlock
            (by decide) (by decide) honesLen (by decide))]
      rw [writeChunksLoop_step c1data c1ptrs 10 12 (c1chunk_ones (10 * 512) (by norm_num))
          rfl
          (write_to_data_block_full (setBlock (setBlock (setBlock (setBlock (setBlock (setBlock (setBlock (setBlock (setBlock (setBlock c1fsW1 2 onesChunk) 3 onesChunk) 4 onesChunk) 5 onesChunk) 6 onesChunk) 7 onesChunk) 8 onesChunk) 9 onesChunk) 10 onesChunk) 11 onesChunk) 12 onesChunk zeroBlock
            (by decide) (by decide) honesLen (by decide))]
      rw [writeChunksLoop_step c1data c1ptrs 11 13 (c1chunk_ones (11 * 512) (by norm_num))
          rfl
          (write_to_data_block_full (setBlock (setBlock (setBlock (setBlock (setBlock (setBlock (setBlock (setBlock (setBlock (setBlock (setBlock c1fsW1 2 onesChunk) 3 onesChunk) 4 onesChunk) 5 onesChunk) 6 onesChunk) 7 onesChunk) 8 onesChunk) 9 onesChunk) 10 onesChunk) 11 onesChunk) 12 onesChunk) 13 onesChunk zeroBlock
            (by decide) (by decide) honesLen (by decide))]
      rw [writeChunksLoop_step c1data c1ptrs 12 14 c1chunk_last
          rfl
          (write_to_data_block_full (setBlock (setBlock (setBlock (setBlock (setBlock (setBlock (setBlock (setBlock (setBlock (setBlock (setBlock (setBlock c1fsW1 2 onesChunk) 3 onesChunk) 4 onesChunk) 5 onesChunk) 6 onesChunk) 7 onesChunk) 8 onesChunk) 9 onesChunk) 10 onesChunk) 11 onesChunk) 12 onesChunk) 13 onesChunk) 14 lastChunk zeroBlock
            (by decide) (by decide) (by decide) (by decide))]
      simp only [writeChunksLoop]
      decide
    have hlenB : c1bigB.length = 6145 := by
      rw [c1bigB, List.length_replicate]
    have hdata : c1bigB ++ List.replicate (512 - c1bigB.length % 512) 0 =
        c1data := by
      rw [hlenB, show (512 - 6145 % 512 : Nat) = 511 from by norm_num, c1data]
    have hn : ceilDiv512 c1data.length = 13 := by
      rw [show c1data.length = 6656 from by
        rw [c1data, List.length_append, hlenB, List.length_replicate]]
      norm_num [ceilDiv512]
    have h0 : find_inode_by_name c1fsA pathA = .ok inoA := by decide
    have h1 : getBlock c1fsA (inoA.data_block_pointers.getD 0 0) =
        .ok metaC := by decide
    have h2 : write_to_data_block (inoA.data_block_pointers.getD 0 0)
        (encodeMetadata (writeFileMeta metaC none none 2)) c1fsA =
        (c1fsW1, .ok ()) := by decide
    have h3 : get_all_block_addresses c1fsW1 inoA = .ok (1 :: []) := by decide
    have h4 : allocLoop c1fsW1 [] ((List.replicate 13 0).set 0
        (inoA.data_block_pointers.getD 0 0)) (List.range 13) =
        .ok c1ptrs := by decide
    have h6 : update_inode { inoA with num_data_blocks := c1ptrs.length + 1 }
        c1fsW2 = (c1fsW3, .ok ()) := by decide
    have h7 : (match wireLoop c1ptrs (List.range c1ptrs.length)
          { inoA with num_data_blocks := c1ptrs.length + 1 } c1fsW3 with
        | (fs4, .error e) => (fs4, .error e)
        | (fs4, .ok ui) => update_inode ui fs4) = (c1fsB, .ok ()) := by
      rw [show wireLoop c1ptrs (List.range c1ptrs.length)
          { inoA with num_data_blocks := c1ptrs.length + 1 } c1fsW3 =
          (c1fsW4, .ok inoB) from by decide]
      decide
    exact write_file_split pathA c1bigB none none 2 c1fsA hdata hn h0 h1 h2
      h3 h4 hchunks h6 h7
  · -- the read, staged, then the mismatch at byte 5632
    have t13 : readBlocksLoop c1fsB c1addrs [] = .ok [] := rfl
    have t12 : readBlocksLoop c1fsB c1addrs [13] = .ok (zeroBlock ++ []) :=
      readBlocksLoop_cons 13 16 (by decide) (by decide) t13
    have t11 : readBlocksLoop c1fsB c1addrs [12, 13] =
        .ok (indBlock ++ (zeroBlock ++ [])) :=
      readBlocksLoop_cons 12 15 (by decide) (by decide) t12
    have t10 : readBlocksLoop c1fsB c1addrs [11, 12, 13] =
        .ok (onesChunk ++ (indBlock ++ (zeroBlock ++ []))) :=
      readBlocksLoop_cons 11 12 (by decide) (by decide) t11
    have t9 : readBlocksLoop c1fsB c1addrs [10, 11, 12, 13] =
        .ok (onesChunk ++ (onesChunk ++ (indBlock ++ (zeroBlock ++ [])))) :=
      readBlocksLoop_cons 10 11 (by decide) (by decide) t10
    have t8 : readBlocksLoop c1fsB c1addrs [9, 10, 11, 12, 13] =
        .ok (onesChunk ++ (onesChunk ++ (onesChunk ++ (indBlock ++
          (zeroBlock ++ []))))) :=
      readBlocksLoop_cons 9 10 (by decide) (by decide) t9
    have t7 : readBlocksLoop c1fsB c1addrs [8, 9, 10, 11, 12, 13] =
        .ok (onesChunk ++ (onesChunk ++ (onesChunk ++ (onesChunk ++
          (indBlock ++ (zeroBlock ++ [])))))) :=
      readBlocksLoop_cons 8 9 (by decide) (by decide) t8
    have t6 : readBlocksLoop c1fsB c1addrs [7, 8, 9, 10, 11, 12, 13] =
        .ok (onesChunk ++ (onesChunk ++ (onesChunk ++ (onesChunk ++
          (onesChunk ++ (indBlock ++ (zeroBlock ++ []))))))) :=
      readBlocksLoop_cons 7 8 (by decide) (by decide) t7
    have t5 : readBlocksLoop c1fsB c1addrs [6, 7, 8, 9, 10, 11, 12, 13] =
        .ok (onesChunk ++ (onesChunk ++ (onesChunk ++ (onesChunk ++
          (onesChunk ++ (onesChunk ++ (indBlock ++ (zeroBlock ++ [])))))))) :=
      readBlocksLoop_cons 6 7 (by decide) (by decide) t6
    have t4 : readBlocksLoop c1fsB c1addrs [5, 6, 7, 8, 9, 10, 11, 12, 13] =
        .ok (onesChunk ++ (onesChunk ++ (onesChunk ++ (onesChunk ++
          (onesChunk ++ (onesChunk ++ (onesChunk ++ (indBlock ++
            (zeroBlock ++ []))))))))) :=
      readBlocksLoop_cons 5 6 (by decide) (by decide) t5
    have t3 : readBlocksLoop c1fsB c1addrs
        [4, 5, 6, 7, 8, 9, 10, 11, 12, 13] =
        .ok (onesChunk ++ (onesChunk ++ (onesChunk ++ (onesChunk ++
          (onesChunk ++ (onesChunk ++ (onesChunk ++ (onesChunk ++
            (indBlock ++ (zeroBlock ++ [])))))))))) :=
      readBlocksLoop_cons 4 5 (by decide) (by decide) t4
    have t2 : readBlocksLoop c1fsB c1addrs
        [3, 4, 5, 6, 7, 8, 9, 10, 11, 12, 13] =
        .ok (onesChunk ++ (onesChunk ++ (onesChunk ++ (onesChunk ++
          (onesChunk ++ (onesChunk ++ (onesChunk ++ (onesChunk ++
            (onesChunk ++ (indBlock ++ (zeroBlock ++ []))))))))))) :=
      readBlocksLoop_cons 3 4 (by decide) (by decide) t3
    have t1 : readBlocksLoop c1fsB c1addrs
        [2, 3, 4, 5, 6, 7, 8, 9, 10, 11, 12, 13] =
        .ok (onesChunk ++ (onesChunk ++ (onesChunk ++ (onesChunk ++
          (onesChunk ++ (onesChunk ++ (onesChunk ++ (onesChunk ++
            (onesChunk ++ (onesChunk ++ (indBlock ++ (zeroBlock ++
              [])))))))))))) :=
      readBlocksLoop_cons 2 3 (by decide) (by decide) t2
    have t0 : readBlocksLoop c1fsB c1addrs
        [1, 2, 3, 4, 5, 6, 7, 8, 9, 10, 11, 12, 13] = .ok c1readData :=
      readBlocksLoop_cons 1 2 (by decide) (by decide) t1
    have r0 : find_inode_by_name c1fsB pathA = .ok inoB := by decide
    have r1 : getBlock c1fsB (inoB.data_block_pointers.getD 0 0) =
        .ok metaW := by decide
    have r2 : get_all_block_addresses c1fsB inoB = .ok c1addrs := by decide
    have hread : read_file c1fsB pathA =
        .ok (c1readData, decodeMetadata metaW) :=
      read_file_split r0 r1 r2 t0
    rw [hread]
    have hlenB2 : c1bigB.length = 6145 := by
      rw [c1bigB, List.length_replicate]
    have hmid : c1readData[5632]? = some 15 := by
      simp only [c1readData]
      rw [getElem?_append_skip onesChunk _ 5632 5120 honesLen (by norm_num),
        getElem?_append_skip onesChunk _ 5120 4608 honesLen (by norm_num),
        getElem?_append_skip onesChunk _ 4608 4096 honesLen (by norm_num),
        getElem?_append_skip onesChunk _ 4096 3584 honesLen (by norm_num),
        getElem?_append_skip onesChunk _ 3584 3072 honesLen (by norm_num),
        getElem?_append_skip onesChunk _ 3072 2560 honesLen (by norm_num),
        getElem?_append_skip onesChunk _ 2560 2048 honesLen (by norm_num),
        getElem?_append_skip onesChunk _ 2048 1536 honesLen (by norm_num),
        getElem?_append_skip onesChunk _ 1536 1024 honesLen (by norm_num),
        getElem?_append_skip onesChunk _ 1024 512 honesLen (by norm_num),
        getElem?_append_skip onesChunk _ 512 0 honesLen (by norm_num)]
      decide
    intro hcontra
    have heq : c1readData.take c1bigB.length = c1bigB := by
      have h1 : (Except.ok (c1readData.take c1bigB.length) :
          Except RunErr (List Nat)) = Except.ok c1bigB := hcontra
      injection h1
    have hL : (c1readData.take c1bigB.length)[5632]? = some 15 := by
      rw [hlenB2, List.getElem?_take, if_pos (by norm_num)]
      exact hmid
    rw [heq, c1bigB, List.getElem?_replicate, if_pos (by norm_num)] at hL
    exact absurd hL (by decide)

/-- C2 (counterexample): after creating `/a` on a blank filesystem and
writing exactly 512 bytes, the inode's `num_data_blocks` is 3, not
`1 + ceil(512/512) = 2`: the padding step always adds between 1 and 512
zero bytes, so a write whose length is already a multiple of 512 gets a
whole extra block. -/
theorem claim2_block_count_counterexample :
    create_file pathA [6, 6, 6] 0 1 c2fs0 = (c2fsA, .ok ()) ∧
    write_file pathA (List.replicate 512 9) none none 2 c2fsA =
      (c2fsB, .ok ()) ∧
    Except.map Inode.num_data_blocks (find_inode_by_name c2fsB pathA) =
      Except.ok 3 ∧
    Except.map Inode.num_data_blocks (find_inode_by_name c2fsB pathA) ≠
      Except.ok 2 := by
  refine ⟨by decide, by decide, by decide, by decide⟩

/-- C9 (counterexample): on a filesystem whose only inode slot is live
but which still has a free data block, `create_file` fails with
`OutOfInodes` — yet the in-memory filesystem is NOT the same as before
the call: the metadata block was already written into the allocated
data block before the inode allocation was attempted. -/
theorem claim9_atomicity_counterexample :
    (create_file pathB [6, 6, 6] 0 1 c9fs).2 =
      .error (.fsErr .OutOfInodes) ∧
    (create_file pathB [6, 6, 6] 0 1 c9fs).1 ≠ c9fs := by
  refine ⟨by decide, by decide⟩

/-- Reading the slot just set, through `getD`. -/
theorem getD_set_eq {α : Type} (l : List α) (i : Nat) (a d : α)
    (h : i < l.length) : (l.set i a).getD i d = a := by
  rw [List.getD_eq_getElem?_getD, List.getElem?_set_self h]
  rfl

/-- Reading another slot after `set`, through `getD`. -/
theorem getD_set_ne {α : Type} (l : List α) (i j : Nat) (a d : α)
    (h : i ≠ j) : (l.set i a).getD j d = l.getD j d := by
  rw [List.getD_eq_getElem?_getD, List.getElem?_set, if_neg h,
    ← List.getD_eq_getElem?_getD]

/-- An in-range `getD` is a member of the list. -/
theorem getD_mem {α : Type} (l : List α) (n : Nat) (d : α)
    (h : n < l.length) : l.getD n d ∈ l := by
  rw [List.getD_eq_getElem?_getD, List.getElem?_eq_getElem h]
  exact List.getElem_mem h

/-- `Pairwise` survives replacing one element by one related to all. -/
theorem pairwise_set {α : Type} {R : α → α → Prop} :
    ∀ (l : List α) (i : Nat) (a : α), l.Pairwise R →
      (∀ x ∈ l, R x a) → (∀ x ∈ l, R a x) → (l.set i a).Pairwise R := by
  intro l
  induction l with
  | nil => intro i a h1 h2 h3; exact List.Pairwise.nil
  | cons x xs ih =>
    intro i a h1 h2 h3
    cases h1 with
    | cons hx hxs =>
      cases i with
      | zero =>
        show (a :: xs).Pairwise R
        exact List.Pairwise.cons
          (fun y hy => h3 y (List.mem_cons_of_mem _ hy)) hxs
      | succ j =>
        show (x :: xs.set j a).Pairwise R
        refine List.Pairwise.cons ?_ (ih j a hxs
          (fun y hy => h2 y (List.mem_cons_of_mem _ hy))
          (fun y hy => h3 y (List.mem_cons_of_mem _ hy)))
        intro y hy
        rcases List.mem_or_eq_of_mem_set hy with hmem | rfl
        · exact hx y hmem
        · exact h2 x (List.mem_cons_self _ _)

/-- Inverting a successful `Except` bind. -/
theorem bind_ok_inv {α β : Type} {x : Res α} {f : α → Res β} {v : β}
    (h : (x >>= f) = .ok v) : ∃ a, x = .ok a ∧ f a = .ok v := by
  cases x with
  | error e =>
    have h2 : Except.bind (Except.error e) f = Except.ok v := h
    rw [Except.bind] at h2
    exact Except.noConfusion h2
  | ok a => exact ⟨a, rfl, h⟩

/-- An unreferenced non-zero block differs from every direct pointer of
every inode in the table. -/
theorem not_referenced_getD {fs : PhysFs} {b : Nat}
    (h : referencedByDirect fs b = false) (hb : 1 ≤ b) :
    ∀ r ∈ fs.inode_table, ∀ j, r.data_block_pointers.getD j 0 ≠ b := by
  intro r hr j
  rw [referencedByDirect] at h
  have h4 : b ∉ r.data_block_pointers := by
    simpa using List.any_eq_false.mp h r hr
  by_cases hj : j < r.data_block_pointers.length
  · intro heq
    exact h4 (heq ▸ getD_mem _ _ _ hj)
  · rw [List.getD_eq_default _ _ (by omega)]
    omega

/-- Unpacking a true `freeAtB`. -/
theorem freeAtB_true {fs : PhysFs} {ig : Option (List Nat)} {b : Nat}
    (h : freeAtB fs ig b = true) :
    referencedByDirect fs b = false ∧ excludedIn ig b = false := by
  cases hget : fs.data_blocks.get? b with
  | none => rw [freeAtB, hget] at h; exact absurd h (by simp)
  | some blk =>
    have h2 : (isZeroBlock blk && !referencedByDirect fs b &&
        !excludedIn ig b) = true := by rw [← h, freeAtB, hget]
    simp only [Bool.and_eq_true, Bool.not_eq_true'] at h2
    exact ⟨h2.1.2, h2.2⟩

/-- A concrete exclusion list excludes exactly its members. -/
theorem excludedIn_some_false {cur : List Nat} {b : Nat}
    (h : excludedIn (some cur) b = false) : b ∉ cur := by
  rw [excludedIn] at h
  simpa using h

/-- A successful `find_empty_data_block` returns a positive index that
is all-zero, unreferenced by direct pointers and not excluded. -/
theorem find_empty_ok_props {fs : PhysFs} {ig : Option (List Nat)} {b : Nat}
    (h : find_empty_data_block fs ig = .ok b) :
    1 ≤ b ∧ referencedByDirect fs b = false ∧ excludedIn ig b = false := by
  rw [find_empty_data_block] at h
  obtain ⟨hmem, hfree⟩ := findGo_ok_props fs ig _ b h
  obtain ⟨h1, -⟩ := List.mem_range'_1.mp hmem
  obtain ⟨h2, h3⟩ := freeAtB_true hfree
  exact ⟨h1, h2, h3⟩

/-- `referencedByDirect` only looks at the inode table. -/
theorem referencedByDirect_congr {fs fs2 : PhysFs}
    (h : fs.inode_table = fs2.inode_table) (b : Nat) :
    referencedByDirect fs b = referencedByDirect fs2 b := by
  rw [referencedByDirect, referencedByDirect, h]

/-- `write_to_data_block` never touches the inode table. -/
theorem write_to_data_block_table (d : Nat) (data : List Nat) (fs : PhysFs) :
    (write_to_data_block d data fs).1.inode_table = fs.inode_table := by
  rw [write_to_data_block]
  by_cases hd : fs.superblock.num_data_blocks ≤ d
  · rw [if_pos hd]
  · rw [if_neg hd]
    cases fs.data_blocks.get? d with
    | none => rfl
    | some b =>
      show (if data.length ≤ 512 then
          (setBlock fs d (data ++ b.drop data.length), Except.ok ())
        else (fs, Except.error RunErr.panicked)).1.inode_table =
        fs.inode_table
      by_cases hl : data.length ≤ 512
      · rw [if_pos hl]
        rfl
      · rw [if_neg hl]

/-- The chunk-writing loop never touches the inode table. -/
theorem writeChunksLoop_table (data ptrs : List Nat) :
    ∀ (l : List Nat) (fs : PhysFs),
      (writeChunksLoop data ptrs fs l).1.inode_table = fs.inode_table := by
  intro l
  induction l with
  | nil => intro fs; rfl
  | cons i rest ih =>
    intro fs
    rw [writeChunksLoop]
    rcases hw : write_to_data_block (ptrs.getD i 0)
        ((data.drop (i * 512)).take 512) fs with ⟨fs1, r⟩
    have ht : fs1.inode_table = fs.inode_table := by
      have h2 := write_to_data_block_table (ptrs.getD i 0)
        ((data.drop (i * 512)).take 512) fs
      rw [hw] at h2
      exact h2
    cases r with
    | error e => exact ht
    | ok u => exact (ih fs1).trans ht

/-- Inverting a successful `update_inode`. -/
theorem update_inode_ok_inv {ino : Inode} {fs fs2 : PhysFs}
    (h : update_inode ino fs = (fs2, .ok ())) :
    ∃ i, fs.inode_table.findIdx?
        (fun r => r.file_name == ino.file_name) = some i ∧
      fs2 = { fs with inode_table := fs.inode_table.set i ino } := by
  cases hidx : fs.inode_table.findIdx?
      (fun r => r.file_name == ino.file_name) with
  | none => rw [update_inode, hidx] at h; exact absurd h (by simp)
  | some i =>
    rw [update_inode, hidx] at h
    exact ⟨i, rfl, (congrArg Prod.fst h).symm⟩

/-- Characterizing a successful `findIdx?` with an arbitrary start. -/
theorem findIdx?_go_spec {α : Type} [Inhabited α] (p : α → Bool) :
    ∀ (l : List α) (s i : Nat), List.findIdx? p l s = some i →
      s ≤ i ∧ i - s < l.length ∧ p (l.getD (i - s) default) = true ∧
      (∀ j, j < i - s → p (l.getD j default) = false) := by
  intro l
  induction l with
  | nil =>
    intro s i h
    rw [List.findIdx?_nil] at h
    exact absurd h (by simp)
  | cons x xs ih =>
    intro s i h
    rw [List.findIdx?_cons] at h
    by_cases hx : p x = true
    · rw [if_pos hx] at h
      obtain rfl : s = i := by cases h; rfl
      refine ⟨le_rfl, by simp, ?_, ?_⟩
      · rw [Nat.sub_self]
        exact hx
      · intro j hj
        omega
    · rw [if_neg hx] at h
      obtain ⟨h1, h2, h3, h4⟩ := ih (s + 1) i h
      refine ⟨by omega, by simp only [List.length_cons]; omega, ?_, ?_⟩
      · rw [show i - s = (i - (s + 1)) + 1 from by omega]
        exact h3
      · intro j hj
        cases j with
        | zero => exact Bool.eq_false_iff.mpr hx
        | succ k => exact h4 k (by omega)

/-- Characterizing a successful zero-based `findIdx?`. -/
theorem findIdx?_spec {α : Type} [Inhabited α] (p : α → Bool) (l : List α)
    (i : Nat) (h : l.findIdx? p = some i) :
    i < l.length ∧ p (l.getD i default) = true ∧
    ∀ j, j < i → p (l.getD j default) = false := by
  obtain ⟨-, h2, h3, h4⟩ := findIdx?_go_spec p l 0 i h
  rw [Nat.sub_zero] at h2 h3
  refine ⟨h2, h3, fun j hj => h4 j (by omega)⟩

/-- `find?` returns the element at the first satisfying position. -/
theorem find?_eq_of_first {α : Type} [Inhabited α] (p : α → Bool) :
    ∀ (l : List α) (i : Nat), i < l.length → p (l.getD i default) = true →
      (∀ j, j < i → p (l.getD j default) = false) →
      l.find? p = some (l.getD i default) := by
  intro l
  induction l with
  | nil => intro i h; exact absurd h (by simp)
  | cons x xs ih =>
    intro i hlen hp hbef
    cases i with
    | zero =>
      have hp2 : p x = true := hp
      rw [List.find?_cons_of_pos _ hp2]
      rfl
    | succ k =>
      have hx0 : p x = false := hbef 0 (by omega)
      rw [List.find?_cons_of_neg _ (by rw [hx0]; exact Bool.false_ne_true)]
      exact ih k (by simpa using hlen) hp (fun j hj => hbef (j + 1) (by omega))

/-- `findIdx?` finds exactly the freshly set slot when everything before
it fails the predicate. -/
theorem findIdx?_set_go {α : Type} [Inhabited α] (p : α → Bool) :
    ∀ (l : List α) (i : Nat) (a : α) (s : Nat),
      (∀ j, j < i → p (l.getD j default) = false) → p a = true →
      i < l.length → List.findIdx? p (l.set i a) s = some (s + i) := by
  intro l
  induction l with
  | nil => intro i a s h1 h2 h3; exact absurd h3 (by simp)
  | cons x xs ih =>
    intro i a s h1 h2 h3
    cases i with
    | zero =>
      show List.findIdx? p (a :: xs) s = some (s + 0)
      rw [List.findIdx?_cons, if_pos h2, Nat.add_zero]
    | succ k =>
      show List.findIdx? p (x :: xs.set k a) s = some (s + (k + 1))
      have hx0 : p x = false := h1 0 (by omega)
      rw [List.findIdx?_cons, if_neg (by rw [hx0]; simp),
        ih k a (s + 1) (fun j hj => h1 (j + 1) (by omega)) h2
          (by simpa using h3)]
      congr 1
      omega

/-- Characterizing a successful block-assignment loop of `write_file`
over the index range `s..s+k`: slots outside the range are untouched,
slots inside reuse the existing addresses while they last, and every
freshly allocated slot holds a positive block index that no inode's
direct array references and that differs from every earlier slot. -/
theorem allocLoop_spec (fs : PhysFs) (ex : List Nat) :
    ∀ (k s : Nat) (ptrs out : List Nat), s + k ≤ ptrs.length →
      allocLoop fs ex ptrs (List.range' s k) = .ok out →
      out.length = ptrs.length ∧
      (∀ j, j < s ∨ s + k ≤ j → out.getD j 0 = ptrs.getD j 0) ∧
      (∀ i, s ≤ i → i < s + k → i < ex.length →
        out.getD i 0 = ex.getD i 0) ∧
      (∀ i, s ≤ i → i < s + k → ex.length ≤ i →
        1 ≤ out.getD i 0 ∧
        referencedByDirect fs (out.getD i 0) = false ∧
        ∀ j, j < i → out.getD j 0 ≠ out.getD i 0) := by
  intro k
  induction k with
  | zero =>
    intro s ptrs out hlen h
    have h2 : (Except.ok ptrs : Res (List Nat)) = .ok out := h
    cases h2
    exact ⟨rfl, fun j hj => rfl,
      fun i h1 h2 h3 => absurd h2 (by omega),
      fun i h1 h2 h3 => absurd h2 (by omega)⟩
  | succ k ih =>
    intro s ptrs out hlen h
    rw [List.range'_succ, allocLoop] at h
    by_cases hse : s < ex.length
    · rw [if_pos hse] at h
      obtain ⟨hl, hunch, hre, hfr⟩ := ih (s + 1) (ptrs.set s (ex.getD s 0))
        out (by rw [List.length_set]; omega) h
      have hslen : s < ptrs.length := by omega
      refine ⟨by rw [hl, List.length_set], ?_, ?_, ?_⟩
      · intro j hj
        rcases hj with hj | hj
        · rw [hunch j (Or.inl (by omega)), getD_set_ne _ _ _ _ _ (by omega)]
        · rw [hunch j (Or.inr (by omega)), getD_set_ne _ _ _ _ _ (by omega)]
      · intro i h1 h2 h3
        rcases Nat.eq_or_lt_of_le h1 with rfl | hlt
        · rw [hunch s (Or.inl (by omega)), getD_set_eq _ _ _ _ hslen]
        · exact hre i hlt (by omega) h3
      · intro i h1 h2 h3
        exact hfr i (by omega) (by omega) h3
    · rw [if_neg hse] at h
      cases hfb : find_empty_data_block fs (some ptrs) with
      | error e => rw [hfb] at h; exact absurd h (by simp)
      | ok b =>
        rw [hfb] at h
        replace h : allocLoop fs ex (ptrs.set s b)
            (List.range' (s + 1) k) = .ok out := h
        obtain ⟨hb1, hbref, hbex⟩ := find_empty_ok_props hfb
        have hnotin : b ∉ ptrs := excludedIn_some_false hbex
        obtain ⟨hl, hunch, hre, hfr⟩ := ih (s + 1) (ptrs.set s b) out
          (by rw [List.length_set]; omega) h
        have hslen : s < ptrs.length := by omega
        have houts : out.getD s 0 = b := by
          rw [hunch s (Or.inl (by omega)), getD_set_eq _ _ _ _ hslen]
        refine ⟨by rw [hl, List.length_set], ?_, ?_, ?_⟩
        · intro j hj
          rcases hj with hj | hj
          · rw [hunch j (Or.inl (by omega)), getD_set_ne _ _ _ _ _ (by omega)]
          · rw [hunch j (Or.inr (by omega)), getD_set_ne _ _ _ _ _ (by omega)]
        · intro i h1 h2 h3
          rcases Nat.eq_or_lt_of_le h1 with rfl | hlt
          · omega
          · exact hre i hlt (by omega) h3
        · intro i h1 h2 h3
          rcases Nat.eq_or_lt_of_le h1 with rfl | hlt
          · refine ⟨by rw [houts]; exact hb1, by rw [houts]; exact hbref, ?_⟩
            intro j hj
            rw [houts, hunch j (Or.inl (by omega)),
              getD_set_ne _ _ _ _ _ (by omega)]
            by_cases hjl : j < ptrs.length
            · intro heq
              exact hnotin (heq ▸ getD_mem _ _ _ hjl)
            · rw [List.getD_eq_default _ _ (by omega)]
              omega
          · exact hfr i hlt (by omega) h3

/-- The body of `allocate_single_indirect_block` past the zero test
keeps the inode table and returns its inode argument unchanged. -/
theorem allocSingleCore_spec {ino : Inode} {bn : Nat} {fs fs2 : PhysFs}
    {ino2 : Inode} (h : allocSingleCore ino bn fs = (fs2, .ok ino2)) :
    fs2.inode_table = fs.inode_table ∧ ino2 = ino := by
  simp only [allocSingleCore] at h
  cases hg : getBlock fs ino.single_indirect_block_pointer with
  | error e => rw [hg] at h; exact absurd h (by simp)
  | ok b =>
    simp only [hg] at h
    cases hf : find_empty_data_block fs (some (slotsOf b)) with
    | error e => simp only [hf] at h; exact absurd h (by simp)
    | ok v =>
      simp only [hf] at h
      have h1 : setBlock fs ino.single_indirect_block_pointer
          (writeSlot b (bn % POINTERS_PER_BLOCK) v) = fs2 :=
        congrArg Prod.fst h
      have h2 : (Except.ok ino : Except RunErr Inode) = .ok ino2 :=
        congrArg Prod.snd h
      cases h2
      exact ⟨by rw [← h1]; rfl, rfl⟩

/-- `allocate_single_indirect_block`, on success, keeps the inode table
and every inode field except the single-indirect pointer, which it
leaves unchanged when already populated and otherwise sets non-zero. -/
theorem allocate_single_spec {ino : Inode} {bn : Nat} {fs fs2 : PhysFs}
    {ino2 : Inode}
    (h : allocate_single_indirect_block ino bn fs = (fs2, .ok ino2)) :
    fs2.inode_table = fs.inode_table ∧
    ino2.data_block_pointers = ino.data_block_pointers ∧
    ino2.file_name = ino.file_name ∧
    ino2.num_data_blocks = ino.num_data_blocks ∧
    ino2.double_indirect_block_pointer =
      ino.double_indirect_block_pointer ∧
    ino2.triple_indirect_block_pointer =
      ino.triple_indirect_block_pointer ∧
    ino2.single_indirect_block_pointer ≠ 0 ∧
    (ino.single_indirect_block_pointer ≠ 0 →
      ino2.single_indirect_block_pointer =
        ino.single_indirect_block_pointer) := by
  rw [allocate_single_indirect_block] at h
  by_cases hz : ino.single_indirect_block_pointer = 0
  · rw [if_pos hz] at h
    cases hf : find_empty_data_block fs none with
    | error e => rw [hf] at h; exact absurd h (by simp)
    | ok s =>
      rw [hf] at h
      replace h : allocSingleCore
          { ino with single_indirect_block_pointer := s } bn fs =
          (fs2, .ok ino2) := h
      obtain ⟨ht, hi⟩ := allocSingleCore_spec h
      obtain ⟨hs1, -, -⟩ := find_empty_ok_props hf
      subst hi
      exact ⟨ht, rfl, rfl, rfl, rfl, rfl, show s ≠ 0 by omega,
        fun hcon => absurd hz hcon⟩
  · rw [if_neg hz] at h
    obtain ⟨ht, hi⟩ := allocSingleCore_spec h
    subst hi
    exact ⟨ht, rfl, rfl, rfl, rfl, rfl, hz, fun hcon => rfl⟩

/-- The body of `allocate_double_indirect_block` past the zero test
keeps the inode table and returns its inode argument unchanged. -/
theorem allocDoubleCore_spec {ino : Inode} {bn : Nat} {fs fs2 : PhysFs}
    {ino2 : Inode} (h : allocDoubleCore ino bn fs = (fs2, .ok ino2)) :
    fs2.inode_table = fs.inode_table ∧ ino2 = ino := by
  simp only [allocDoubleCore] at h
  cases hg : getBlock fs ino.double_indirect_block_pointer with
  | error e => rw [hg] at h; exact absurd h (by simp)
  | ok b =>
    simp only [hg] at h
    cases hs : slotGet b (bn / POINTERS_PER_BLOCK) with
    | error e => simp only [hs] at h; exact absurd h (by simp)
    | ok v0 =>
      simp only [hs] at h
      rcases hopt : (if v0 = 0 then
          match find_empty_data_block fs (some (slotsOf b)) with
          | .error _ => none
          | .ok w => some (setBlock fs ino.double_indirect_block_pointer
              (writeSlot b (bn / POINTERS_PER_BLOCK) w))
        else some fs) with _ | fs1
      · simp only [hopt] at h
        exact absurd h (by simp)
      · simp only [hopt] at h
        have ht1 : fs1.inode_table = fs.inode_table := by
          by_cases hv : v0 = 0
          · rw [if_pos hv] at hopt
            cases hf : find_empty_data_block fs (some (slotsOf b)) with
            | error e => rw [hf] at hopt; exact absurd hopt (by simp)
            | ok w =>
              rw [hf] at hopt
              injection hopt with h2
              rw [← h2]
              rfl
          · rw [if_neg hv] at hopt
            injection hopt with h2
            rw [← h2]
        cases hg2 : getBlock fs1 ino.double_indirect_block_pointer with
        | error e => simp only [hg2] at h; exact absurd h (by simp)
        | ok b1 =>
          simp only [hg2] at h
          cases hs2 : slotGet b1 (bn / POINTERS_PER_BLOCK) with
          | error e => simp only [hs2] at h; exact absurd h (by simp)
          | ok pp =>
            simp only [hs2] at h
            rcases ha : allocate_single_indirect_block
                { Inode.defaultInode with
                  single_indirect_block_pointer := pp }
                (bn % POINTERS_PER_BLOCK) fs1 with ⟨fs3, ra⟩
            simp only [ha] at h
            cases ra with
            | error e => exact absurd h (by simp)
            | ok tmp =>
              obtain ⟨ht3, -⟩ := allocate_single_spec ha
              have h1 : fs3 = fs2 := congrArg Prod.fst h
              have h2 : (Except.ok ino : Except RunErr Inode) = .ok ino2 :=
                congrArg Prod.snd h
              cases h2
              exact ⟨by rw [← h1]; exact ht3.trans ht1, rfl⟩

/-- `allocate_double_indirect_block`, on success, keeps the inode table
and every inode field except the double-indirect pointer, which it
leaves unchanged when already populated and otherwise sets non-zero. -/
theorem allocate_double_spec {ino : Inode} {bn : Nat} {fs fs2 : PhysFs}
    {ino2 : Inode}
    (h : allocate_double_indirect_block ino bn fs = (fs2, .ok ino2)) :
    fs2.inode_table = fs.inode_table ∧
    ino2.data_block_pointers = ino.data_block_pointers ∧
    ino2.file_name = ino.file_name ∧
    ino2.num_data_blocks = ino.num_data_blocks ∧
    ino2.single_indirect_block_pointer =
      ino.single_indirect_block_pointer ∧
    ino2.triple_indirect_block_pointer =
      ino.triple_indirect_block_pointer ∧
    ino2.double_indirect_block_pointer ≠ 0 ∧
    (ino.double_indirect_block_pointer ≠ 0 →
      ino2.double_indirect_block_pointer =
        ino.double_indirect_block_pointer) := by
  rw [allocate_double_indirect_block] at h
  by_cases hz : ino.double_indirect_block_pointer = 0
  · rw [if_pos hz] at h
    cases hf : find_empty_data_block fs none with
    | error e => rw [hf] at h; exact absurd h (by simp)
    | ok s =>
      rw [hf] at h
      replace h : allocDoubleCore
          { ino with double_indirect_block_pointer := s } bn fs =
          (fs2, .ok ino2) := h
      obtain ⟨ht, hi⟩ := allocDoubleCore_spec h
      obtain ⟨hs1, -, -⟩ := find_empty_ok_props hf
      subst hi
      exact ⟨ht, rfl, rfl, rfl, rfl, rfl, show s ≠ 0 by omega,
        fun hcon => absurd hz hcon⟩
  · rw [if_neg hz] at h
    obtain ⟨ht, hi⟩ := allocDoubleCore_spec h
    subst hi
    exact ⟨ht, rfl, rfl, rfl, rfl, rfl, hz, fun hcon => rfl⟩

/-- The body of `allocate_triple_indirect_block` past the zero test
keeps the inode table and returns its inode argument unchanged. -/
theorem allocTripleCore_spec {ino : Inode} {bn : Nat} {fs fs2 : PhysFs}
    {ino2 : Inode} (h : allocTripleCore ino bn fs = (fs2, .ok ino2)) :
    fs2.inode_table = fs.inode_table ∧ ino2 = ino := by
  simp only [allocTripleCore] at h
  cases hg : getBlock fs ino.triple_indirect_block_pointer with
  | error e => rw [hg] at h; exact absurd h (by simp)
  | ok b =>
    simp only [hg] at h
    cases hs : slotGet b
        (bn / (POINTERS_PER_BLOCK * POINTERS_PER_BLOCK)) with
    | error e => simp only [hs] at h; exact absurd h (by simp)
    | ok v0 =>
      simp only [hs] at h
      rcases hopt : (if v0 = 0 then
          match find_empty_data_block fs (some (slotsOf b)) with
          | .error _ => none
          | .ok w => some (setBlock fs ino.triple_indirect_block_pointer
              (writeSlot b
                (bn / (POINTERS_PER_BLOCK * POINTERS_PER_BLOCK)) w))
        else some fs) with _ | fs1
      · simp only [hopt] at h
        exact absurd h (by simp)
      · simp only [hopt] at h
        have ht1 : fs1.inode_table = fs.inode_table := by
          by_cases hv : v0 = 0
          · rw [if_pos hv] at hopt
            cases hf : find_empty_data_block fs (some (slotsOf b)) with
            | error e => rw [hf] at hopt; exact absurd hopt (by simp)
            | ok w =>
              rw [hf] at hopt
              injection hopt with h2
              rw [← h2]
              rfl
          · rw [if_neg hv] at hopt
            injection hopt with h2
            rw [← h2]
        cases hg2 : getBlock fs1 ino.triple_indirect_block_pointer with
        | error e => simp only [hg2] at h; exact absurd h (by simp)
        | ok b1 =>
          simp only [hg2] at h
          cases hs2 : slotGet b1
              (bn / (POINTERS_PER_BLOCK * POINTERS_PER_BLOCK)) with
          | error e => simp only [hs2] at h; exact absurd h (by simp)
          | ok pp =>
            simp only [hs2] at h
            rcases ha : allocate_double_indirect_block
                { Inode.defaultInode with
                  double_indirect_block_pointer := pp }
                (bn % (POINTERS_PER_BLOCK * POINTERS_PER_BLOCK)) fs1 with
              ⟨fs3, ra⟩
            simp only [ha] at h
            cases ra with
            | error e => exact absurd h (by simp)
            | ok tmp =>
              obtain ⟨ht3, -⟩ := allocate_double_spec ha
              have h1 : fs3 = fs2 := congrArg Prod.fst h
              have h2 : (Except.ok ino : Except RunErr Inode) = .ok ino2 :=
                congrArg Prod.snd h
              cases h2
              exact ⟨by rw [← h1]; exact ht3.trans ht1, rfl⟩

/-- `allocate_triple_indirect_block`, on success, keeps the inode table
and every inode field except the triple-indirect pointer, which it
leaves unchanged when already populated and otherwise sets non-zero. -/
theorem allocate_triple_spec {ino : Inode} {bn : Nat} {fs fs2 : PhysFs}
    {ino2 : Inode}
    (h : allocate_triple_indirect_block ino bn fs = (fs2, .ok ino2)) :
    fs2.inode_table = fs.inode_table ∧
    ino2.data_block_pointers = ino.data_block_pointers ∧
    ino2.file_name = ino.file_name ∧
    ino2.num_data_blocks = ino.num_data_blocks ∧
    ino2.single_indirect_block_pointer =
      ino.single_indirect_block_pointer ∧
    ino2.double_indirect_block_pointer =
      ino.double_indirect_block_pointer ∧
    ino2.triple_indirect_block_pointer ≠ 0 ∧
    (ino.triple_indirect_block_pointer ≠ 0 →
      ino2.triple_indirect_block_pointer =
        ino.triple_indirect_block_pointer) := by
  rw [allocate_triple_indirect_block] at h
  by_cases hz : ino.triple_indirect_block_pointer = 0
  · rw [if_pos hz] at h
    cases hf : find_empty_data_block fs none with
    | error e => rw [hf] at h; exact absurd h (by simp)
    | ok s =>
      rw [hf] at h
      replace h : allocTripleCore
          { ino with triple_indirect_block_pointer := s } bn fs =
          (fs2, .ok ino2) := h
      obtain ⟨ht, hi⟩ := allocTripleCore_spec h
      obtain ⟨hs1, -, -⟩ := find_empty_ok_props hf
      subst hi
      exact ⟨ht, rfl, rfl, rfl, rfl, rfl, show s ≠ 0 by omega,
        fun hcon => absurd hz hcon⟩
  · rw [if_neg hz] at h
    obtain ⟨ht, hi⟩ := allocTripleCore_spec h
    subst hi
    exact ⟨ht, rfl, rfl, rfl, rfl, rfl, hz, fun hcon => rfl⟩

/-- Characterizing a successful pointer-wiring loop of `write_file`:
the inode table is untouched; the returned inode keeps its name, block
count and array length; direct slots change only to `ptrs[s-1]` for a
wired logical index `s-1` in the list, every small logical index is
wired, the indirect pointers never return to zero, and each indirect
pointer becomes (or stays) non-zero exactly through the branches whose
index class the list contains. -/
theorem wireLoop_spec (ptrs : List Nat) :
    ∀ (l : List Nat) (ui : Inode) (fs fs4 : PhysFs) (ui2 : Inode),
      ui.data_block_pointers.length = 12 →
      wireLoop ptrs l ui fs = (fs4, .ok ui2) →
      fs4.inode_table = fs.inode_table ∧
      ui2.file_name = ui.file_name ∧
      ui2.num_data_blocks = ui.num_data_blocks ∧
      ui2.data_block_pointers.length = 12 ∧
      (∀ s, ui2.data_block_pointers.getD s 0 ≠
          ui.data_block_pointers.getD s 0 →
        1 ≤ s ∧ s < 12 ∧ (s - 1) ∈ l ∧
        ui2.data_block_pointers.getD s 0 = ptrs.getD (s - 1) 0) ∧
      (∀ i ∈ l, i + 1 < 12 →
        ui2.data_block_pointers.getD (i + 1) 0 = ptrs.getD i 0) ∧
      (ui.single_indirect_block_pointer ≠ 0 →
        ui2.single_indirect_block_pointer ≠ 0) ∧
      (ui.double_indirect_block_pointer ≠ 0 →
        ui2.double_indirect_block_pointer ≠ 0) ∧
      (ui.triple_indirect_block_pointer ≠ 0 →
        ui2.triple_indirect_block_pointer ≠ 0) ∧
      (ui2.single_indirect_block_pointer = 0 →
        ui.single_indirect_block_pointer = 0 ∧
        ∀ i ∈ l, i + 1 < 12 ∨ 76 ≤ i + 1) ∧
      (ui2.double_indirect_block_pointer = 0 →
        ui.double_indirect_block_pointer = 0 ∧
        ∀ i ∈ l, i + 1 < 76 ∨ 4108 ≤ i + 1) ∧
      (ui2.double_indirect_block_pointer ≠ 0 →
        ui.double_indirect_block_pointer ≠ 0 ∨ ∃ i ∈ l, 76 ≤ i + 1) ∧
      (ui2.triple_indirect_block_pointer ≠ 0 →
        ui.triple_indirect_block_pointer ≠ 0 ∨ ∃ i ∈ l, 4108 ≤ i + 1) ∧
      ((∀ i ∈ l, i + 1 < 12) →
        ui2.single_indirect_block_pointer =
          ui.single_indirect_block_pointer ∧
        ui2.double_indirect_block_pointer =
          ui.double_indirect_block_pointer ∧
        ui2.triple_indirect_block_pointer =
          ui.triple_indirect_block_pointer) := by
  intro l
  induction l with
  | nil =>
    intro ui fs fs4 ui2 hlen h
    have h2 : ((fs, Except.ok ui) : PhysFs × Except RunErr Inode) =
        (fs4, .ok ui2) := h
    have hf : fs = fs4 := congrArg Prod.fst h2
    have hu : (Except.ok ui : Except RunErr Inode) = .ok ui2 :=
      congrArg Prod.snd h2
    cases hu
    subst hf
    refine ⟨rfl, rfl, rfl, hlen, fun s hs => (hs rfl).elim,
      fun i hi => absurd hi (List.not_mem_nil i), id, id, id,
      fun h0 => ⟨h0, fun i hi => absurd hi (List.not_mem_nil i)⟩,
      fun h0 => ⟨h0, fun i hi => absurd hi (List.not_mem_nil i)⟩,
      fun hd => Or.inl hd, fun hd => Or.inl hd,
      fun hall => ⟨rfl, rfl, rfl⟩⟩
  | cons i rest ih =>
    intro ui fs fs4 ui2 hlen h
    have hppb : POINTERS_PER_BLOCK = 64 := rfl
    have hppb2 : POINTERS_PER_BLOCK * POINTERS_PER_BLOCK = 4096 := rfl
    simp only [wireLoop] at h
    by_cases hb1 : i + 1 < 12
    · rw [if_pos hb1] at h
      obtain ⟨c1, c2, c3, c4, c5, c6, c7, c8, c9, c10, c11, c12, c13, c14⟩ :=
        ih { ui with data_block_pointers :=
            ui.data_block_pointers.set (i + 1) (ptrs.getD i 0) } fs fs4 ui2
          (by rw [List.length_set]; exact hlen) h
      refine ⟨c1, c2, c3, c4, ?_, ?_, c7, c8, c9, ?_, ?_, ?_, ?_, ?_⟩
      · intro s hs
        by_cases hchg : ui2.data_block_pointers.getD s 0 =
            (ui.data_block_pointers.set (i + 1) (ptrs.getD i 0)).getD s 0
        · by_cases hsi : s = i + 1
          · subst hsi
            refine ⟨by omega, hb1,
              by rw [Nat.add_sub_cancel]; exact List.mem_cons_self _ _, ?_⟩
            rw [hchg, getD_set_eq _ _ _ _ (by omega), Nat.add_sub_cancel]
          · exfalso
            rw [hchg, getD_set_ne _ _ _ _ _ (fun he => hsi he.symm)] at hs
            exact hs rfl
        · obtain ⟨d1, d2, d3, d4⟩ := c5 s hchg
          exact ⟨d1, d2, List.mem_cons_of_mem _ d3, d4⟩
      · intro j hj hj12
        rcases List.mem_cons.mp hj with rfl | hjr
        · by_cases hchg : ui2.data_block_pointers.getD (j + 1) 0 =
              (ui.data_block_pointers.set (j + 1) (ptrs.getD j 0)).getD
                (j + 1) 0
          · rw [hchg, getD_set_eq _ _ _ _ (by omega)]
          · obtain ⟨d1, d2, d3, d4⟩ := c5 (j + 1) hchg
            rw [d4, Nat.add_sub_cancel]
        · exact c6 j hjr hj12
      · intro h0
        obtain ⟨e1, e2⟩ := c10 h0
        refine ⟨e1, fun j hj => ?_⟩
        rcases List.mem_cons.mp hj with rfl | hjr
        · exact Or.inl hb1
        · exact e2 j hjr
      · intro h0
        obtain ⟨e1, e2⟩ := c11 h0
        refine ⟨e1, fun j hj => ?_⟩
        rcases List.mem_cons.mp hj with rfl | hjr
        · exact Or.inl (by omega)
        · exact e2 j hjr
      · intro h0
        rcases c12 h0 with hd | ⟨j, hj, hjb⟩
        · exact Or.inl hd
        · exact Or.inr ⟨j, List.mem_cons_of_mem _ hj, hjb⟩
      · intro h0
        rcases c13 h0 with hd | ⟨j, hj, hjb⟩
        · exact Or.inl hd
        · exact Or.inr ⟨j, List.mem_cons_of_mem _ hj, hjb⟩
      · intro hall
        exact c14 (fun j hj => hall j (List.mem_cons_of_mem _ hj))
    · rw [if_neg hb1] at h
      by_cases hb2 : i + 1 < 12 + POINTERS_PER_BLOCK
      · rw [if_pos hb2] at h
        rcases ha : allocate_single_indirect_block ui (i + 1 - 12) fs with
          ⟨fs1, e | ui1⟩
        · simp only [ha] at h
          exact absurd h (by simp)
        · simp only [ha] at h
          obtain ⟨ht1, hdp, hfn, hnum, hdbl, htrp, hsnz, hkeep⟩ :=
            allocate_single_spec ha
          rcases hg : getBlock fs1 ui1.single_indirect_block_pointer with
            e | b
          · simp only [hg] at h
            exact absurd h (by simp)
          · simp only [hg] at h
            obtain ⟨c1, c2, c3, c4, c5, c6, c7, c8, c9, c10, c11, c12, c13,
                c14⟩ :=
              ih ui1 (setBlock fs1 ui1.single_indirect_block_pointer
                  (writeSlot b ((i + 1) % POINTERS_PER_BLOCK)
                    (ptrs.getD i 0))) fs4 ui2
                (by rw [hdp]; exact hlen) h
            refine ⟨c1.trans ht1, c2.trans hfn, c3.trans hnum, c4, ?_, ?_,
              ?_, ?_, ?_, ?_, ?_, ?_, ?_, ?_⟩
            · intro s hs
              have hs2 : ui2.data_block_pointers.getD s 0 ≠
                  ui1.data_block_pointers.getD s 0 := by
                rw [hdp]; exact hs
              obtain ⟨d1, d2, d3, d4⟩ := c5 s hs2
              exact ⟨d1, d2, List.mem_cons_of_mem _ d3, d4⟩
            · intro j hj hj12
              rcases List.mem_cons.mp hj with rfl | hjr
              · exact absurd hj12 hb1
              · exact c6 j hjr hj12
            · exact fun hd => c7 hsnz
            · exact fun hd => c8 (by rw [hdbl]; exact hd)
            · exact fun hd => c9 (by rw [htrp]; exact hd)
            · intro h0
              exact absurd (c10 h0).1 hsnz
            · intro h0
              obtain ⟨e1, e2⟩ := c11 h0
              rw [hdbl] at e1
              refine ⟨e1, fun j hj => ?_⟩
              rcases List.mem_cons.mp hj with rfl | hjr
              · exact Or.inl (by omega)
              · exact e2 j hjr
            · intro h0
              rcases c12 h0 with hd | ⟨j, hj, hjb⟩
              · exact Or.inl (by rw [← hdbl]; exact hd)
              · exact Or.inr ⟨j, List.mem_cons_of_mem _ hj, hjb⟩
            · intro h0
              rcases c13 h0 with hd | ⟨j, hj, hjb⟩
              · exact Or.inl (by rw [← htrp]; exact hd)
              · exact Or.inr ⟨j, List.mem_cons_of_mem _ hj, hjb⟩
            · intro hall
              exact absurd (hall i (List.mem_cons_self _ _)) hb1
      · rw [if_neg hb2] at h
        by_cases hb3 : i + 1 < 12 + POINTERS_PER_BLOCK * POINTERS_PER_BLOCK
        · rw [if_pos hb3] at h
          rcases ha : allocate_double_indirect_block ui
              (i + 1 - 12 - POINTERS_PER_BLOCK) fs with ⟨fs1, e | ui1⟩
          · simp only [ha] at h
            exact absurd h (by simp)
          · simp only [ha] at h
            obtain ⟨ht1, hdp, hfn, hnum, hsng, htrp, hdnz, hdkeep⟩ :=
              allocate_double_spec ha
            rcases hg : getBlock fs1 ui1.double_indirect_block_pointer with
              e | b
            · simp only [hg] at h
              exact absurd h (by simp)
            · simp only [hg] at h
              rcases hs : slotGet b ((i + 1) / POINTERS_PER_BLOCK) with
                e | v0
              · simp only [hs] at h
                exact absurd h (by simp)
              · simp only [hs] at h
                rcases hopt : (if v0 = 0 then
                    match find_empty_data_block fs1 (some (slotsOf b)) with
                    | .error _ => none
                    | .ok w => some (setBlock fs1
                        ui1.double_indirect_block_pointer
                        (writeSlot b ((i + 1) / POINTERS_PER_BLOCK) w))
                  else some fs1) with _ | fs2
                · simp only [hopt] at h
                  exact absurd h (by simp)
                · simp only [hopt] at h
                  have ht2 : fs2.inode_table = fs1.inode_table := by
                    by_cases hv : v0 = 0
                    · rw [if_pos hv] at hopt
                      cases hf2 : find_empty_data_block fs1
                          (some (slotsOf b)) with
                      | error e =>
                        rw [hf2] at hopt
                        exact absurd hopt (by simp)
                      | ok w =>
                        rw [hf2] at hopt
                        injection hopt with h2
                        rw [← h2]
                        rfl
                    · rw [if_neg hv] at hopt
                      injection hopt with h2
                      rw [← h2]
                  rcases hg2 : getBlock fs2
                      ui1.double_indirect_block_pointer with e | b2
                  · simp only [hg2] at h
                    exact absurd h (by simp)
                  · simp only [hg2] at h
                    rcases hs2 : slotGet b2 ((i + 1) / POINTERS_PER_BLOCK)
                      with e | p
                    · simp only [hs2] at h
                      exact absurd h (by simp)
                    · simp only [hs2] at h
                      rcases ha2 : allocate_single_indirect_block
                          { Inode.defaultInode with
                            single_indirect_block_pointer := p }
                          ((i + 1) % POINTERS_PER_BLOCK) fs2 with
                        ⟨fs3, e | tmp⟩
                      · simp only [ha2] at h
                        exact absurd h (by simp)
                      · simp only [ha2] at h
                        obtain ⟨ht3, -⟩ := allocate_single_spec ha2
                        rcases hg3 : getBlock fs3
                            ui1.double_indirect_block_pointer with e | b3
                        · simp only [hg3] at h
                          exact absurd h (by simp)
                        · simp only [hg3] at h
                          rcases hs3 : slotGet b3
                              ((i + 1) / POINTERS_PER_BLOCK) with e | p2
                          · simp only [hs3] at h
                            exact absurd h (by simp)
                          · simp only [hs3] at h
                            rcases hg4 : getBlock fs3 p2 with e | sb
                            · simp only [hg4] at h
                              exact absurd h (by simp)
                            · simp only [hg4] at h
                              obtain ⟨c1, c2, c3, c4, c5, c6, c7, c8, c9,
                                  c10, c11, c12, c13, c14⟩ :=
                                ih ui1 (setBlock fs3 p2 (writeSlot sb
                                    ((i + 1) % POINTERS_PER_BLOCK)
                                    (ptrs.getD i 0))) fs4 ui2
                                  (by rw [hdp]; exact hlen) h
                              refine ⟨c1.trans (ht3.trans (ht2.trans ht1)),
                                c2.trans hfn, c3.trans hnum, c4, ?_, ?_,
                                ?_, ?_, ?_, ?_, ?_, ?_, ?_, ?_⟩
                              · intro s0 hs4
                                have hs5 : ui2.data_block_pointers.getD s0 0 ≠
                                    ui1.data_block_pointers.getD s0 0 := by
                                  rw [hdp]; exact hs4
                                obtain ⟨d1, d2, d3, d4⟩ := c5 s0 hs5
                                exact ⟨d1, d2, List.mem_cons_of_mem _ d3, d4⟩
                              · intro j hj hj12
                                rcases List.mem_cons.mp hj with rfl | hjr
                                · exact absurd hj12 hb1
                                · exact c6 j hjr hj12
                              · exact fun hd => c7 (by rw [hsng]; exact hd)
                              · exact fun hd => c8 hdnz
                              · exact fun hd => c9 (by rw [htrp]; exact hd)
                              · intro h0
                                obtain ⟨e1, e2⟩ := c10 h0
                                rw [hsng] at e1
                                refine ⟨e1, fun j hj => ?_⟩
                                rcases List.mem_cons.mp hj with rfl | hjr
                                · exact Or.inr (by omega)
                                · exact e2 j hjr
                              · intro h0
                                exact absurd (c11 h0).1 hdnz
                              · intro h0
                                exact Or.inr ⟨i, List.mem_cons_self _ _,
                                  by omega⟩
                              · intro h0
                                rcases c13 h0 with hd | ⟨j, hj, hjb⟩
                                · exact Or.inl (by rw [← htrp]; exact hd)
                                · exact Or.inr
                                    ⟨j, List.mem_cons_of_mem _ hj, hjb⟩
                              · intro hall
                                exact absurd
                                  (hall i (List.mem_cons_self _ _)) hb1
        · rw [if_neg hb3] at h
          rcases ha : allocate_triple_indirect_block ui
              (i + 1 - 12 - POINTERS_PER_BLOCK * POINTERS_PER_BLOCK) fs with
            ⟨fs1, e | ui1⟩
          · simp only [ha] at h
            exact absurd h (by simp)
          · simp only [ha] at h
            obtain ⟨ht1, hdp, hfn, hnum, hsng, hdbl, htnz, htkeep⟩ :=
              allocate_triple_spec ha
            rcases hg : getBlock fs1 ui1.triple_indirect_block_pointer with
              e | b
            · simp only [hg] at h
              exact absurd h (by simp)
            · simp only [hg] at h
              rcases hs : slotGet b ((i + 1) /
                  (POINTERS_PER_BLOCK * POINTERS_PER_BLOCK)) with e | v0
              · simp only [hs] at h
                exact absurd h (by simp)
              · simp only [hs] at h
                rcases hopt : (if v0 = 0 then
                    match find_empty_data_block fs1 (some (slotsOf b)) with
                    | .error _ => none
                    | .ok w => some (setBlock fs1
                        ui1.triple_indirect_block_pointer
                        (writeSlot b ((i + 1) /
                          (POINTERS_PER_BLOCK * POINTERS_PER_BLOCK)) w))
                  else some fs1) with _ | fs2
                · simp only [hopt] at h
                  exact absurd h (by simp)
                · simp only [hopt] at h
                  have ht2 : fs2.inode_table = fs1.inode_table := by
                    by_cases hv : v0 = 0
                    · rw [if_pos hv] at hopt
                      cases hf2 : find_empty_data_block fs1
                          (some (slotsOf b)) with
                      | error e =>
                        rw [hf2] at hopt
                        exact absurd hopt (by simp)
                      | ok w =>
                        rw [hf2] at hopt
                        injection hopt with h2
                        rw [← h2]
                        rfl
                    · rw [if_neg hv] at hopt
                      injection hopt with h2
                      rw [← h2]
                  rcases hg2 : getBlock fs2
                      ui1.triple_indirect_block_pointer with e | b2
                  · simp only [hg2] at h
                    exact absurd h (by simp)
                  · simp only [hg2] at h
                    rcases hs2 : slotGet b2 ((i + 1) /
                        (POINTERS_PER_BLOCK * POINTERS_PER_BLOCK)) with
                      e | p
                    · simp only [hs2] at h
                      exact absurd h (by simp)
                    · simp only [hs2] at h
                      rcases ha2 : allocate_double_indirect_block
                          { Inode.defaultInode with
                            double_indirect_block_pointer := p }
                          ((i + 1) %
                            (POINTERS_PER_BLOCK * POINTERS_PER_BLOCK)) fs2
                        with ⟨fs3, e | tmp⟩
                      · simp only [ha2] at h
                        exact absurd h (by simp)
                      · simp only [ha2] at h
                        obtain ⟨ht3, -⟩ := allocate_double_spec ha2
                        rcases hg3 : getBlock fs3 p with e | db
                        · simp only [hg3] at h
                          exact absurd h (by simp)
                        · simp only [hg3] at h
                          rcases hs3 : slotGet db ((i + 1) %
                              (POINTERS_PER_BLOCK * POINTERS_PER_BLOCK))
                            with e | u
                          · simp only [hs3] at h
                            exact absurd h (by simp)
                          · simp only [hs3] at h
                            rcases ha3 : allocate_single_indirect_block
                                { Inode.defaultInode with
                                  single_indirect_block_pointer := u }
                                ((i + 1) % POINTERS_PER_BLOCK) fs3 with
                              ⟨fs5, e | tmp2⟩
                            · simp only [ha3] at h
                              exact absurd h (by simp)
                            · simp only [ha3] at h
                              obtain ⟨ht5, -⟩ := allocate_single_spec ha3
                              rcases hg5 : getBlock fs5 p with e | db2
                              · simp only [hg5] at h
                                exact absurd h (by simp)
                              · simp only [hg5] at h
                                rcases hs5 : slotGet db2 ((i + 1) %
                                    (POINTERS_PER_BLOCK *
                                      POINTERS_PER_BLOCK)) with e | u2
                                · simp only [hs5] at h
                                  exact absurd h (by simp)
                                · simp only [hs5] at h
                                  rcases hg6 : getBlock fs5 u2 with e | sb
                                  · simp only [hg6] at h
                                    exact absurd h (by simp)
                                  · simp only [hg6] at h
                                    obtain ⟨c1, c2, c3, c4, c5, c6, c7, c8,
                                        c9, c10, c11, c12, c13, c14⟩ :=
                                      ih ui1 (setBlock fs5 u2 (writeSlot sb
                                          ((i + 1) % POINTERS_PER_BLOCK)
                                          (ptrs.getD i 0))) fs4 ui2
                                        (by rw [hdp]; exact hlen) h
                                    refine ⟨c1.trans (ht5.trans
                                        (ht3.trans (ht2.trans ht1))),
                                      c2.trans hfn, c3.trans hnum, c4, ?_,
                                      ?_, ?_, ?_, ?_, ?_, ?_, ?_, ?_, ?_⟩
                                    · intro s0 hs6
                                      have hs7 :
                                          ui2.data_block_pointers.getD s0 0 ≠
                                          ui1.data_block_pointers.getD
                                            s0 0 := by
                                        rw [hdp]; exact hs6
                                      obtain ⟨d1, d2, d3, d4⟩ := c5 s0 hs7
                                      exact ⟨d1, d2,
                                        List.mem_cons_of_mem _ d3, d4⟩
                                    · intro j hj hj12
                                      rcases List.mem_cons.mp hj with
                                        rfl | hjr
                                      · exact absurd hj12 hb1
                                      · exact c6 j hjr hj12
                                    · exact fun hd => c7
                                        (by rw [hsng]; exact hd)
                                    · exact fun hd => c8
                                        (by rw [hdbl]; exact hd)
                                    · exact fun hd => c9 htnz
                                    · intro h0
                                      obtain ⟨e1, e2⟩ := c10 h0
                                      rw [hsng] at e1
                                      refine ⟨e1, fun j hj => ?_⟩
                                      rcases List.mem_cons.mp hj with
                                        rfl | hjr
                                      · exact Or.inr (by omega)
                                      · exact e2 j hjr
                                    · intro h0
                                      obtain ⟨e1, e2⟩ := c11 h0
                                      rw [hdbl] at e1
                                      refine ⟨e1, fun j hj => ?_⟩
                                      rcases List.mem_cons.mp hj with
                                        rfl | hjr
                                      · exact Or.inr (by omega)
                                      · exact e2 j hjr
                                    · intro h0
                                      rcases c12 h0 with hd | ⟨j, hj, hjb⟩
                                      · exact Or.inl
                                          (by rw [← hdbl]; exact hd)
                                      · exact Or.inr
                                          ⟨j, List.mem_cons_of_mem _ hj,
                                            hjb⟩
                                    · intro h0
                                      exact Or.inr
                                        ⟨i, List.mem_cons_self _ _,
                                          by omega⟩
                                    · intro hall
                                      exact absurd
                                        (hall i (List.mem_cons_self _ _)) hb1

/-- Under the contiguity property, filtering the zeros out of a pointer
array keeps exactly a prefix of it. -/
theorem filter_ne_prefix :
    ∀ (l : List Nat),
      (∀ i j, i < j → j < l.length → l.getD j 0 ≠ 0 → l.getD i 0 ≠ 0) →
      ∃ m, m ≤ l.length ∧
        l.filter (fun x => decide (x ≠ 0)) = l.take m ∧
        (∀ i, i < m → l.getD i 0 ≠ 0) ∧
        (∀ i, m ≤ i → i < l.length → l.getD i 0 = 0) := by
  intro l
  induction l with
  | nil =>
    intro h
    exact ⟨0, Nat.le_refl 0, rfl, fun i hi => absurd hi (by omega),
      fun i h1 h2 => absurd h2 (by simp)⟩
  | cons x xs ih =>
    intro h
    by_cases hx : x = 0
    · have hall : ∀ i, i < (x :: xs).length → (x :: xs).getD i 0 = 0 := by
        intro i hi
        by_contra hne
        cases i with
        | zero => exact hne hx
        | succ k => exact h 0 (k + 1) (by omega) hi hne hx
      refine ⟨0, by omega, ?_, fun i hi => absurd hi (by omega),
        fun i h1 h2 => hall i h2⟩
      rw [List.take_zero]
      apply List.filter_eq_nil_iff.mpr
      intro a ha
      obtain ⟨idx, hidx, hEq⟩ := List.mem_iff_getElem.mp ha
      have h5 := hall idx hidx
      rw [List.getD_eq_getElem _ _ hidx, hEq] at h5
      rw [h5]
      decide
    · have hxs : ∀ i j, i < j → j < xs.length → xs.getD j 0 ≠ 0 →
          xs.getD i 0 ≠ 0 := by
        intro i j hij hj hne
        exact h (i + 1) (j + 1) (by omega)
          (by simp only [List.length_cons]; omega) hne
      obtain ⟨m, hm1, hm2, hm3, hm4⟩ := ih hxs
      refine ⟨m + 1, by simp only [List.length_cons]; omega, ?_, ?_, ?_⟩
      · rw [List.filter_cons, if_pos (by simpa using hx), hm2]
        rfl
      · intro i hi
        cases i with
        | zero => exact hx
        | succ k => exact hm3 k (by omega)
      · intro i h1 h2
        cases i with
        | zero => exact absurd h1 (by omega)
        | succ k =>
          exact hm4 k (by omega)
            (by simp only [List.length_cons] at h2; omega)

/-- A successful `pure` pins the returned value. -/
theorem pure_ok_inv {α : Type} {a v : α}
    (h : (pure a : Res α) = .ok v) : v = a := by
  have h2 : (Except.ok a : Res α) = .ok v := h
  cases h2
  rfl

/-- For a structurally sound inode, the address list returned by
`get_all_block_addresses` starts with the non-zero direct pointers in
slot order: position `s < 12` of the list equals direct slot `s`, and
every non-zero direct slot is covered. -/
theorem get_all_direct_prefix {fs : PhysFs} {ino : Inode} {addrs : List Nat}
    (hdOk : DirectOk ino)
    (h : get_all_block_addresses fs ino = .ok addrs) :
    (∀ s, s < 12 → s < addrs.length →
      addrs.getD s 0 = ino.data_block_pointers.getD s 0 ∧
      ino.data_block_pointers.getD s 0 ≠ 0) ∧
    (∀ s, s < 12 → ino.data_block_pointers.getD s 0 ≠ 0 →
      s < addrs.length) := by
  obtain ⟨hlen, hcont, hfull, hE, hF, hnd⟩ := hdOk
  simp only [get_all_block_addresses] at h
  by_cases hz : ino.single_indirect_block_pointer = 0
  · rw [if_pos hz] at h
    try simp only [pure_bind] at h
    have hdz : ino.double_indirect_block_pointer = 0 := by
      by_contra hcon
      exact absurd hz (hE hcon)
    rw [if_pos hdz] at h
    try simp only [pure_bind] at h
    have htz : ino.triple_indirect_block_pointer = 0 := by
      by_contra hcon
      exact absurd hdz (hF hcon)
    rw [if_pos htz] at h
    try simp only [pure_bind] at h
    obtain rfl := pure_ok_inv h
    simp only [List.append_nil]
    obtain ⟨m, hm1, hm2, hm3, hm4⟩ := filter_ne_prefix
      ino.data_block_pointers
      (fun i j hij hj hne => hcont i j hij (by omega) hne)
    constructor
    · intro s hs12 hslen
      rw [hm2, List.length_take] at hslen
      have hsm : s < m := by omega
      constructor
      · rw [hm2, List.getD_eq_getElem?_getD, List.getElem?_take,
          if_pos hsm, ← List.getD_eq_getElem?_getD]
      · exact hm3 s hsm
    · intro s hs12 hne
      have hsm : s < m := by
        by_contra hcon
        exact hne (hm4 s (by omega) (by omega))
      rw [hm2, List.length_take]
      omega
  · have hfull2 := hfull hz
    rw [if_neg hz] at h
    obtain ⟨b, hb, h⟩ := bind_ok_inv h
    simp only [pure_bind] at h
    have key : ∃ rest, addrs =
        ino.data_block_pointers.filter (fun x => decide (x ≠ 0)) ++
          rest := by
      by_cases hd2 : ino.double_indirect_block_pointer = 0
      · rw [if_pos hd2] at h
        try simp only [pure_bind] at h
        by_cases ht2 : ino.triple_indirect_block_pointer = 0
        · rw [if_pos ht2] at h
          try simp only [pure_bind] at h
          obtain rfl := pure_ok_inv h
          refine ⟨List.filter (fun x => decide (x ≠ 0)) (slotsOf b) ++
            ([] ++ []), ?_⟩
          simp only [List.append_assoc]
        · rw [if_neg ht2] at h
          obtain ⟨b3, hb3, h⟩ := bind_ok_inv h
          obtain ⟨tp, htp2, h⟩ := bind_ok_inv h
          obtain rfl := pure_ok_inv h
          refine ⟨List.filter (fun x => decide (x ≠ 0)) (slotsOf b) ++
            ([] ++ tp), ?_⟩
          simp only [List.append_assoc]
      · rw [if_neg hd2] at h
        obtain ⟨b2, hb2, h⟩ := bind_ok_inv h
        obtain ⟨dbl, hdbl, h⟩ := bind_ok_inv h
        by_cases ht2 : ino.triple_indirect_block_pointer = 0
        · rw [if_pos ht2] at h
          try simp only [pure_bind] at h
          obtain rfl := pure_ok_inv h
          refine ⟨List.filter (fun x => decide (x ≠ 0)) (slotsOf b) ++
            (dbl ++ []), ?_⟩
          simp only [List.append_assoc]
        · rw [if_neg ht2] at h
          obtain ⟨b3, hb3, h⟩ := bind_ok_inv h
          obtain ⟨tp, htp2, h⟩ := bind_ok_inv h
          obtain rfl := pure_ok_inv h
          refine ⟨List.filter (fun x => decide (x ≠ 0)) (slotsOf b) ++
            (dbl ++ tp), ?_⟩
          simp only [List.append_assoc]
    obtain ⟨rest, hrest⟩ := key
    have hfeq : ino.data_block_pointers.filter (fun x => decide (x ≠ 0)) =
        ino.data_block_pointers := by
      apply List.filter_eq_self.mpr
      intro a ha
      obtain ⟨idx, hidx, hEq⟩ := List.mem_iff_getElem.mp ha
      have h5 := hfull2 idx (by omega)
      rw [List.getD_eq_getElem _ _ hidx, hEq] at h5
      exact decide_eq_true h5
    rw [hfeq] at hrest
    subst hrest
    constructor
    · intro s hs12 hslen
      refine ⟨?_, hfull2 s hs12⟩
      rw [List.getD_append ino.data_block_pointers rest 0 s (by omega)]
    · intro s hs12 hne
      rw [List.length_append, hlen]
      omega

/-- Inverting a successful `write_file` stage by stage: the success
equation of every phase, with the inode table constant through the
metadata and chunk writes. -/
theorem write_file_ok_inv {p data0 : List Nat} {perms : Option (List Nat)}
    {owner : Option Nat} {now : Nat} {fs fsF : PhysFs}
    (h : write_file p data0 perms owner now fs = (fsF, .ok ())) :
    ∃ n ino a ex ptrs fs1 fs2 fs3 fs4 ui,
      n = ceilDiv512
        (data0 ++ List.replicate (512 - data0.length % 512) 0).length ∧
      find_inode_by_name fs p = .ok ino ∧
      fs1.inode_table = fs.inode_table ∧
      get_all_block_addresses fs1 ino = .ok (a :: ex) ∧
      allocLoop fs1 ex ((List.replicate n 0).set 0
        (ino.data_block_pointers.getD 0 0)) (List.range n) = .ok ptrs ∧
      fs2.inode_table = fs.inode_table ∧
      update_inode { ino with num_data_blocks := ptrs.length + 1 } fs2 =
        (fs3, .ok ()) ∧
      wireLoop ptrs (List.range ptrs.length)
        { ino with num_data_blocks := ptrs.length + 1 } fs3 =
        (fs4, .ok ui) ∧
      update_inode ui fs4 = (fsF, .ok ()) := by
  simp only [write_file] at h
  cases hfi : find_inode_by_name fs p with
  | error e => simp only [hfi] at h; exact absurd h (by simp)
  | ok ino =>
    simp only [hfi] at h
    cases hgb : getBlock fs (ino.data_block_pointers.getD 0 0) with
    | error e => simp only [hgb] at h; exact absurd h (by simp)
    | ok mb =>
      simp only [hgb] at h
      rcases hw : write_to_data_block (ino.data_block_pointers.getD 0 0)
          (encodeMetadata (writeFileMeta mb perms owner now)) fs with
        ⟨fs1, e | u⟩
      · simp only [hw] at h
        exact absurd h (by simp)
      · simp only [hw] at h
        have ht1 : fs1.inode_table = fs.inode_table := by
          have h2 := write_to_data_block_table
            (ino.data_block_pointers.getD 0 0)
            (encodeMetadata (writeFileMeta mb perms owner now)) fs
          rw [hw] at h2
          exact h2
        cases hga : get_all_block_addresses fs1 ino with
        | error e => simp only [hga] at h; exact absurd h (by simp)
        | ok allA =>
          simp only [hga] at h
          cases allA with
          | nil => exact absurd h (by simp)
          | cons a ex =>
            cases hal : allocLoop fs1 ex
                ((List.replicate (ceilDiv512 (data0 ++
                  List.replicate (512 - data0.length % 512) 0).length)
                  0).set 0 (ino.data_block_pointers.getD 0 0))
                (List.range (ceilDiv512 (data0 ++
                  List.replicate (512 - data0.length % 512) 0).length)) with
            | error e => simp only [hal] at h; exact absurd h (by simp)
            | ok ptrs =>
              simp only [hal] at h
              rcases hwc : writeChunksLoop (data0 ++
                  List.replicate (512 - data0.length % 512) 0) ptrs fs1
                  (List.range (ceilDiv512 (data0 ++
                    List.replicate (512 - data0.length % 512) 0).length))
                with ⟨fs2, e | u2⟩
              · simp only [hwc] at h
                exact absurd h (by simp)
              · simp only [hwc] at h
                have ht2 : fs2.inode_table = fs.inode_table := by
                  have h2 := writeChunksLoop_table (data0 ++
                      List.replicate (512 - data0.length % 512) 0) ptrs
                    (List.range (ceilDiv512 (data0 ++
                      List.replicate (512 - data0.length % 512) 0).length))
                    fs1
                  rw [hwc] at h2
                  exact h2.trans ht1
                rcases hui : update_inode
                    { ino with num_data_blocks := ptrs.length + 1 } fs2 with
                  ⟨fs3, e | u3⟩
                · simp only [hui] at h
                  exact absurd h (by simp)
                · simp only [hui] at h
                  rcases hwl : wireLoop ptrs (List.range ptrs.length)
                      { ino with num_data_blocks := ptrs.length + 1 } fs3
                    with ⟨fs4, e | ui⟩
                  · simp only [hwl] at h
                    exact absurd h (by simp)
                  · simp only [hwl] at h
                    exact ⟨_, ino, a, ex, ptrs, fs1, fs2, fs3, fs4, ui,
                      rfl, rfl, ht1, hga, hal, ht2, hui, hwl, h⟩

/-- A successful name lookup is a successful `find?` on the table. -/
theorem find_inode_by_name_find? {fs : PhysFs} {p : List Nat} {ino : Inode}
    (h : find_inode_by_name fs p = .ok ino) :
    fs.inode_table.find? (fun r => r.file_name == padName p) = some ino := by
  rw [find_inode_by_name] at h
  by_cases hl : p.length ≤ 384
  · rw [if_pos hl] at h
    cases hf : fs.inode_table.find? (fun r => r.file_name == padName p) with
    | none => rw [hf] at h; exact absurd h (by simp)
    | some r =>
      rw [hf] at h
      obtain rfl : r = ino := by cases h; rfl
      rfl
  · rw [if_neg hl] at h
    exact absurd h (by simp)

/-- Reading any slot of an all-zero replicated list gives zero. -/
theorem getD_replicate_zero (n j : Nat) :
    (List.replicate n (0 : Nat)).getD j 0 = 0 := by
  rw [List.getD_eq_getElem?_getD, List.getElem?_replicate]
  by_cases hj : j < n
  · rw [if_pos hj]
    rfl
  · rw [if_neg hj]
    rfl

/-- A replicated list is pairwise related whenever the element relates
to itself. -/
theorem pairwise_replicate_of {α : Type} {R : α → α → Prop} (a : α)
    (hR : R a a) : ∀ n, (List.replicate n a).Pairwise R := by
  intro n
  induction n with
  | zero => exact List.Pairwise.nil
  | succ k ih =>
    rw [List.replicate_succ]
    refine List.Pairwise.cons ?_ ih
    intro y hy
    rw [List.eq_of_mem_replicate hy]
    exact hR

/-- The default inode satisfies the per-row allocator invariant. -/
theorem directOk_default : DirectOk Inode.defaultInode := by
  refine ⟨rfl, ?_, ?_, ?_, ?_, ?_⟩
  · intro i j hij hj hne
    exact absurd (getD_replicate_zero 12 j) hne
  · intro hc
    exact absurd rfl hc
  · intro hc
    exact absurd rfl hc
  · intro hc
    exact absurd rfl hc
  · intro i j hij hj hne
    exact absurd (getD_replicate_zero 12 i) hne

/-- A blank filesystem satisfies the table-wide allocator invariant. -/
theorem tableOk_blank (size : Nat) : TableOk (VirtFs.new size) := by
  constructor
  · intro r hr
    have h2 : r = Inode.defaultInode := List.eq_of_mem_replicate hr
    rw [h2]
    exact directOk_default
  · apply pairwise_replicate_of
    intro i j hi hj hne
    exact absurd (getD_replicate_zero 12 i) hne

/-- The direct array of a freshly created inode, slot by slot. -/
theorem createdInode_getD (p : List Nat) (d : Nat) (j : Nat) :
    (createdInode p d).data_block_pointers.getD j 0 =
      if j = 0 then d else 0 := by
  show ((List.replicate 12 0).set 0 d).getD j 0 = if j = 0 then d else 0
  cases j with
  | zero =>
    rw [if_pos rfl, getD_set_eq _ _ _ _ (by simp)]
  | succ k =>
    rw [if_neg (by omega), getD_set_ne _ _ _ _ _ (by omega)]
    exact getD_replicate_zero 12 (k + 1)

/-- A freshly created inode satisfies the per-row allocator invariant. -/
theorem directOk_created (p : List Nat) (d : Nat) (hd : 1 ≤ d) :
    DirectOk (createdInode p d) := by
  refine ⟨?_, ?_, ?_, ?_, ?_, ?_⟩
  · show ((List.replicate 12 0).set 0 d).length = 12
    rw [List.length_set, List.length_replicate]
  · intro i j hij hj hne
    rw [createdInode_getD, if_neg (by omega)] at hne
    exact absurd rfl hne
  · intro hc
    exact absurd rfl hc
  · intro hc
    exact absurd rfl hc
  · intro hc
    exact absurd rfl hc
  · intro i j hij hj hne
    rw [createdInode_getD] at hne
    rw [createdInode_getD, createdInode_getD]
    by_cases hi0 : i = 0
    · subst hi0
      rw [if_pos rfl, if_neg (by omega)]
      omega
    · rw [if_neg hi0] at hne
      exact absurd rfl hne

/-- `create_file` preserves the table-wide allocator invariant: the new
row points at the freshly found (unreferenced) metadata block only. -/
theorem tableOk_create {p perms : List Nat} {owner now : Nat}
    {fs fs1 : PhysFs} (hOk : TableOk fs)
    (h : create_file p perms owner now fs = (fs1, .ok ())) :
    TableOk fs1 := by
  obtain ⟨d, b, idx, hfd, hplen, hg, hdb, hidx, hfi, hfs1⟩ :=
    create_file_ok_inv h
  obtain ⟨hd1, hdref, -⟩ := find_empty_ok_props hfd
  have hnotref := not_referenced_getD hdref hd1
  obtain ⟨hRows, hPw⟩ := hOk
  have htab : fs1.inode_table =
      fs.inode_table.set idx (createdInode p d) := by
    rw [hfs1]
  constructor
  · intro r hr
    rw [htab] at hr
    rcases List.mem_or_eq_of_mem_set hr with hmem | rfl
    · exact hRows r hmem
    · exact directOk_created p d hd1
  · rw [htab]
    apply pairwise_set _ _ _ hPw
    · intro x hx i j hi hj hne
      rw [createdInode_getD]
      by_cases hj0 : j = 0
      · rw [if_pos hj0]
        exact hnotref x hx i
      · rw [if_neg hj0]
        exact hne
    · intro x hx i j hi hj hne
      rw [createdInode_getD] at hne ⊢
      by_cases hi0 : i = 0
      · rw [if_pos hi0] at hne ⊢
        intro heq
        exact hnotref x hx j heq.symm
      · rw [if_neg hi0] at hne
        exact absurd rfl hne

/-- `delete` preserves the table-wide allocator invariant: it only
filters rows out of the table. -/
theorem tableOk_delete {p : List Nat} {fs fs2 : PhysFs} (hOk : TableOk fs)
    (h : VirtFs.delete p fs = (fs2, .ok ())) : TableOk fs2 := by
  obtain ⟨hRows, hPw⟩ := hOk
  cases hf : find_inode_by_name fs p with
  | error e =>
    rw [VirtFs.delete, hf] at h
    exact absurd h (by simp)
  | ok ino =>
    simp only [VirtFs.delete, hf] at h
    rcases hz : deleteZeroLoop ino.data_block_pointers fs
        (List.range ino.num_data_blocks) with ⟨fs1, rz⟩
    rw [hz] at h
    cases rz with
    | error e => exact absurd h (by simp)
    | ok u =>
      cases u
      have hfs2 : fs2 = { fs1 with
          inode_table :=
            List.filter (fun r => r.file_name != ino.file_name)
              fs1.inode_table } :=
        (congrArg Prod.fst h).symm
      have ht1 : fs1.inode_table = fs.inode_table := by
        have h2 := deleteZeroLoop_table ino.data_block_pointers
          (List.range ino.num_data_blocks) fs
        rw [hz] at h2
        exact h2
      constructor
      · intro r hr
        rw [hfs2] at hr
        have hmem := List.mem_filter.mp hr
        have hmem1 : r ∈ fs.inode_table := by
          rw [← ht1]
          exact hmem.1
        exact hRows r hmem1
      · rw [hfs2]
        have hPw1 : fs1.inode_table.Pairwise (fun r1 r2 => ∀ i j,
            i < 12 → j < 12 → r1.data_block_pointers.getD i 0 ≠ 0 →
            r1.data_block_pointers.getD i 0 ≠
              r2.data_block_pointers.getD j 0) := by
          rw [ht1]
          exact hPw
        exact List.Pairwise.filter _ hPw1

/-- `Pairwise` survives replacing position `i` when the new element
relates (both ways) to the element at every other position. -/
theorem pairwise_set_of_get {α : Type} [Inhabited α] {R : α → α → Prop} :
    ∀ (l : List α) (i : Nat) (a : α), l.Pairwise R →
      (∀ j, j < l.length → j ≠ i →
        R (l.getD j default) a ∧ R a (l.getD j default)) →
      (l.set i a).Pairwise R := by
  intro l
  induction l with
  | nil => intro i a h1 h2; exact List.Pairwise.nil
  | cons x xs ih =>
    intro i a h1 h2
    cases h1 with
    | cons hx hxs =>
      cases i with
      | zero =>
        show (a :: xs).Pairwise R
        refine List.Pairwise.cons ?_ hxs
        intro y hy
        obtain ⟨k, hk, hEq⟩ := List.mem_iff_getElem.mp hy
        have h3 : R a (xs.getD k default) :=
          (h2 (k + 1) (by simp only [List.length_cons]; omega)
            (by omega)).2
        rw [List.getD_eq_getElem _ _ hk, hEq] at h3
        exact h3
      | succ n =>
        show (x :: xs.set n a).Pairwise R
        refine List.Pairwise.cons ?_ (ih n a hxs ?_)
        · intro y hy
          rcases List.mem_or_eq_of_mem_set hy with hmem | rfl
          · exact hx y hmem
          · exact (h2 0 (by simp) (by omega)).1
        · intro j hj hji
          exact h2 (j + 1) (by simp only [List.length_cons]; omega)
            (by omega)

/-- Positional form of `Pairwise` through `getD`. -/
theorem pairwise_getD {α : Type} [Inhabited α] {R : α → α → Prop}
    {l : List α} (h : l.Pairwise R) (i j : Nat) (hij : i < j)
    (hj : j < l.length) : R (l.getD i default) (l.getD j default) := by
  have hi : i < l.length := by omega
  rw [List.getD_eq_getElem _ _ hi, List.getD_eq_getElem _ _ hj]
  exact List.pairwise_iff_getElem.mp h i j hi hj hij

/-- `write_file` preserves the table-wide allocator invariant: the
rewritten row keeps slot 0, reuses its own previously addressed blocks
position-for-position, and fills the remaining wired slots with fresh
unreferenced blocks. -/
theorem tableOk_write {p data0 : List Nat} {perms : Option (List Nat)}
    {owner : Option Nat} {now : Nat} {fs fsF : PhysFs} (hOk : TableOk fs)
    (h : write_file p data0 perms owner now fs = (fsF, .ok ())) :
    TableOk fsF := by
  obtain ⟨n, ino, a, ex, ptrs, fs1, fs2, fs3, fs4, ui,
    hn, hfi, ht1, hga, hal, ht2, hui, hwl, huf⟩ := write_file_ok_inv h
  obtain ⟨hRows, hPw⟩ := hOk
  obtain ⟨hplen, hname, hmem⟩ := find_inode_by_name_ok hfi
  have hfind := find_inode_by_name_find? hfi
  have hdOk := hRows ino hmem
  obtain ⟨hlen12, hcont, hfull, hE, hF, hnd⟩ := hRows ino hmem
  obtain ⟨hG1, hG2⟩ := get_all_direct_prefix hdOk hga
  have hptrs0len : ((List.replicate n 0).set 0
      (ino.data_block_pointers.getD 0 0)).length = n := by
    rw [List.length_set, List.length_replicate]
  rw [List.range_eq_range'] at hal
  obtain ⟨hPlen, hPunch, hPre, hPfr⟩ := allocLoop_spec fs1 ex n 0
    ((List.replicate n 0).set 0 (ino.data_block_pointers.getD 0 0)) ptrs
    (by rw [hptrs0len]; omega) hal
  have hptrslen : ptrs.length = n := hPlen.trans hptrs0len
  obtain ⟨hW1, hW2, hW3, hW4, hW5, hW6, hW7, hW8, hW9, hW10, hW11, hW12,
    hW13, hW14⟩ := wireLoop_spec ptrs (List.range ptrs.length)
      { ino with num_data_blocks := ptrs.length + 1 } fs3 fs4 ui hlen12 hwl
  obtain ⟨i0, hIdx0, hfs3⟩ := update_inode_ok_inv hui
  obtain ⟨i1, hIdx1, hfsF⟩ := update_inode_ok_inv huf
  rw [ht2] at hIdx0
  have hnm : ({ ino with num_data_blocks := ptrs.length + 1 } :
      Inode).file_name = padName p := hname
  rw [hnm] at hIdx0
  obtain ⟨hi0len, hi0p, hi0bef⟩ := findIdx?_spec _ _ _ hIdx0
  have hrow0 : fs.inode_table.getD i0 default = ino := by
    have hfirst := find?_eq_of_first
      (fun r : Inode => r.file_name == padName p) fs.inode_table i0
      hi0len hi0p hi0bef
    rw [hfind] at hfirst
    injection hfirst with h2
    exact h2.symm
  have htab3 : fs3.inode_table = fs.inode_table.set i0
      { ino with num_data_blocks := ptrs.length + 1 } := by
    rw [hfs3, ht2]
  have htab4 : fs4.inode_table = fs.inode_table.set i0
      { ino with num_data_blocks := ptrs.length + 1 } := hW1.trans htab3
  have hnm2 : ui.file_name = padName p := hW2.trans hname
  rw [htab4, hnm2] at hIdx1
  have hbeq : (({ ino with num_data_blocks := ptrs.length + 1 } :
      Inode).file_name == padName p) = true := by
    rw [hnm]
    exact beq_self_eq_true _
  have hIdx1b := findIdx?_set_go (fun r : Inode =>
      r.file_name == padName p) fs.inode_table i0
    { ino with num_data_blocks := ptrs.length + 1 } 0 hi0bef hbeq hi0len
  rw [hIdx1b] at hIdx1
  have hi10 : i1 = i0 := by
    injection hIdx1 with h2
    omega
  subst hi10
  have htabF : fsF.inode_table = fs.inode_table.set i1 ui := by
    rw [hfsF, htab4, List.set_set]
  have h0eq : ui.data_block_pointers.getD 0 0 =
      ino.data_block_pointers.getD 0 0 := by
    by_contra hne
    have := (hW5 0 hne).1
    omega
  obtain ⟨ha0, h00⟩ := hG1 0 (by omega) (by simp)
  have hchar1 : ∀ s, 1 ≤ s → s < 12 → s ≤ n →
      ui.data_block_pointers.getD s 0 = ptrs.getD (s - 1) 0 := by
    intro s h1 h2 h3
    have hm : s - 1 ∈ List.range ptrs.length :=
      List.mem_range.mpr (by omega)
    have h4 := hW6 (s - 1) hm (by omega)
    have hs1 : s - 1 + 1 = s := by omega
    rw [hs1] at h4
    exact h4
  have hkept : ∀ s, s < 12 → n < s →
      ui.data_block_pointers.getD s 0 =
        ino.data_block_pointers.getD s 0 := by
    intro s h2 h3
    by_contra hne
    obtain ⟨-, -, hmem2, -⟩ := hW5 s hne
    have := List.mem_range.mp hmem2
    omega
  have hcons : ∀ k, (a :: ex).getD (k + 1) 0 = ex.getD k 0 := fun k => rfl
  have hreused : ∀ s, 1 ≤ s → s < 12 → s ≤ n → s - 1 < ex.length →
      ui.data_block_pointers.getD s 0 =
        ino.data_block_pointers.getD s 0 ∧
      ino.data_block_pointers.getD s 0 ≠ 0 := by
    intro s h1 h2 h3 h4
    obtain ⟨hga1, hga2⟩ := hG1 s h2 (by simp only [List.length_cons]; omega)
    refine ⟨?_, hga2⟩
    rw [hchar1 s h1 h2 h3, hPre (s - 1) (by omega) (by omega) h4, ← hga1,
      ← hcons (s - 1), Nat.sub_add_cancel h1]
  have hfresh : ∀ s, 1 ≤ s → s < 12 → s ≤ n → ex.length ≤ s - 1 →
      1 ≤ ui.data_block_pointers.getD s 0 ∧
      referencedByDirect fs (ui.data_block_pointers.getD s 0) = false ∧
      (∀ j, j < s - 1 →
        ptrs.getD j 0 ≠ ui.data_block_pointers.getD s 0) := by
    intro s h1 h2 h3 h4
    obtain ⟨hf1, hf2, hf3⟩ := hPfr (s - 1) (by omega) (by omega) h4
    rw [hchar1 s h1 h2 h3]
    refine ⟨hf1, ?_, hf3⟩
    rw [← referencedByDirect_congr ht1 (ptrs.getD (s - 1) 0)]
    exact hf2
  have hval : ∀ s, s < 12 →
      ui.data_block_pointers.getD s 0 =
        ino.data_block_pointers.getD s 0 ∨
      (1 ≤ s ∧ s ≤ n ∧ ex.length ≤ s - 1 ∧
        1 ≤ ui.data_block_pointers.getD s 0 ∧
        referencedByDirect fs (ui.data_block_pointers.getD s 0) = false ∧
        (∀ j, j < s - 1 →
          ptrs.getD j 0 ≠ ui.data_block_pointers.getD s 0)) := by
    intro s hs
    by_cases h1 : 1 ≤ s
    · by_cases h3 : s ≤ n
      · by_cases h4 : s - 1 < ex.length
        · exact Or.inl (hreused s h1 hs h3 h4).1
        · exact Or.inr ⟨h1, h3, by omega, hfresh s h1 hs h3 (by omega)⟩
      · exact Or.inl (hkept s hs (by omega))
    · obtain rfl : s = 0 := by omega
      exact Or.inl h0eq
  have hwired_nz : ∀ s, 1 ≤ s → s < 12 → s ≤ n →
      ui.data_block_pointers.getD s 0 ≠ 0 := by
    intro s h1 h2 h3
    by_cases h4 : s - 1 < ex.length
    · have h5 := hreused s h1 h2 h3 h4
      rw [h5.1]
      exact h5.2
    · have h5 := (hfresh s h1 h2 h3 (by omega)).1
      omega
  have hdOkui : DirectOk ui := by
    refine ⟨hW4, ?_, ?_, ?_, ?_, ?_⟩
    · intro i j hij hj hne
      by_cases hi1 : 1 ≤ i
      · by_cases hin : i ≤ n
        · exact hwired_nz i hi1 (by omega) hin
        · have hj_n : n < j := by omega
          rw [hkept i (by omega) (by omega)]
          rw [hkept j hj hj_n] at hne
          exact hcont i j hij hj hne
      · obtain rfl : i = 0 := by omega
        rw [h0eq]
        exact h00
    · intro hsz s hs12
      by_cases hz0 : ino.single_indirect_block_pointer = 0
      · have hn12 : 12 ≤ n := by
          by_contra hcon
          have hall : ∀ i ∈ List.range ptrs.length, i + 1 < 12 := by
            intro i hi
            have := List.mem_range.mp hi
            omega
          have h6 := (hW14 hall).1
          exact hsz (h6.trans hz0)
        by_cases hs1 : 1 ≤ s
        · exact hwired_nz s hs1 hs12 (by omega)
        · obtain rfl : s = 0 := by omega
          rw [h0eq]
          exact h00
      · have hold := hfull hz0
        by_cases hs1 : 1 ≤ s
        · by_cases hsn : s ≤ n
          · exact hwired_nz s hs1 hs12 hsn
          · rw [hkept s hs12 (by omega)]
            exact hold s hs12
        · obtain rfl : s = 0 := by omega
          rw [h0eq]
          exact h00
    · intro hdz hz2
      obtain ⟨hz0, hsmall⟩ := hW10 hz2
      rcases hW12 hdz with hdold | ⟨i, hi, hib⟩
      · exact hE hdold hz0
      · have hin := List.mem_range.mp hi
        have h11 : (11 : Nat) ∈ List.range ptrs.length :=
          List.mem_range.mpr (by omega)
        rcases hsmall 11 h11 with hlt | hge
        · omega
        · omega
    · intro htz hz2
      obtain ⟨hz0, hsmall⟩ := hW11 hz2
      rcases hW13 htz with htold | ⟨i, hi, hib⟩
      · exact hF htold hz0
      · have hin := List.mem_range.mp hi
        have h75 : (75 : Nat) ∈ List.range ptrs.length :=
          List.mem_range.mpr (by omega)
        rcases hsmall 75 h75 with hlt | hge
        · omega
        · omega
    · intro i j hij hj hnei
      rcases hval i (by omega) with hiv |
        ⟨hi1, hin, hiex, hifr1, hifr2, hifr3⟩
      · rcases hval j hj with hjv |
          ⟨hj1, hjn, hjex, hjfr1, hjfr2, hjfr3⟩
        · rw [hiv, hjv]
          rw [hiv] at hnei
          exact hnd i j hij hj hnei
        · rw [hiv]
          exact not_referenced_getD hjfr2 hjfr1 ino hmem i
      · rcases hval j hj with hjv |
          ⟨hj1, hjn, hjex, hjfr1, hjfr2, hjfr3⟩
        · rw [hjv]
          exact (not_referenced_getD hifr2 hifr1 ino hmem j).symm
        · rw [hchar1 i hi1 (by omega) hin]
          exact hjfr3 (i - 1) (by omega)
  have hcross : ∀ jdx, jdx < fs.inode_table.length → jdx ≠ i1 →
      (∀ b bj, b < 12 → bj < 12 →
        (fs.inode_table.getD jdx
          (default : Inode)).data_block_pointers.getD b 0 ≠ 0 →
        (fs.inode_table.getD jdx
          (default : Inode)).data_block_pointers.getD b 0 ≠
          ui.data_block_pointers.getD bj 0) ∧
      (∀ b bj, b < 12 → bj < 12 →
        ui.data_block_pointers.getD b 0 ≠ 0 →
        ui.data_block_pointers.getD b 0 ≠
        (fs.inode_table.getD jdx
          (default : Inode)).data_block_pointers.getD bj 0) := by
    intro jdx hjlen hjne
    have hrmem : fs.inode_table.getD jdx (default : Inode) ∈
        fs.inode_table := getD_mem _ _ _ hjlen
    have hRj : ∀ b bj, b < 12 → bj < 12 →
        (fs.inode_table.getD jdx
          (default : Inode)).data_block_pointers.getD b 0 ≠ 0 →
        (fs.inode_table.getD jdx
          (default : Inode)).data_block_pointers.getD b 0 ≠
          ino.data_block_pointers.getD bj 0 := by
      intro b bj hb hbj hbne
      rcases Nat.lt_or_ge jdx i1 with hlt | hge
      · have hR := pairwise_getD hPw jdx i1 hlt hi0len
        rw [hrow0] at hR
        exact hR b bj hb hbj hbne
      · have hlt2 : i1 < jdx := by omega
        have hR := pairwise_getD hPw i1 jdx hlt2 hjlen
        rw [hrow0] at hR
        by_cases hi0z : ino.data_block_pointers.getD bj 0 = 0
        · rw [hi0z]
          exact hbne
        · intro heq
          exact hR bj b hbj hb hi0z heq.symm
    have hRj2 : ∀ b bj, b < 12 → bj < 12 →
        ino.data_block_pointers.getD b 0 ≠ 0 →
        ino.data_block_pointers.getD b 0 ≠
          (fs.inode_table.getD jdx
            (default : Inode)).data_block_pointers.getD bj 0 := by
      intro b bj hb hbj hbne
      by_cases hjz : (fs.inode_table.getD jdx
          (default : Inode)).data_block_pointers.getD bj 0 = 0
      · rw [hjz]
        exact hbne
      · intro heq
        exact hRj bj b hbj hb hjz heq.symm
    constructor
    · intro b bj hb hbj hbne
      rcases hval bj hbj with hbv | ⟨-, -, -, hfr1, hfr2, -⟩
      · rw [hbv]
        exact hRj b bj hb hbj hbne
      · exact not_referenced_getD hfr2 hfr1 _ hrmem b
    · intro b bj hb hbj hbne
      rcases hval b (by omega) with hbv | ⟨-, -, -, hfr1, hfr2, -⟩
      · rw [hbv] at hbne ⊢
        exact hRj2 b bj hb hbj hbne
      · exact (not_referenced_getD hfr2 hfr1 _ hrmem bj).symm
  constructor
  · intro r hr
    rw [htabF] at hr
    rcases List.mem_or_eq_of_mem_set hr with hmem2 | rfl
    · exact hRows r hmem2
    · exact hdOkui
  · rw [htabF]
    apply pairwise_set_of_get _ _ _ hPw
    intro jdx hjlen hjne
    exact hcross jdx hjlen hjne

/-- Every state reachable from a blank filesystem by `create_file`,
`write_file` and `delete` satisfies the table-wide allocator
invariant. -/
theorem tableOk_reachable {fs : PhysFs} (h : Reachable fs) : TableOk fs := by
  induction h with
  | blank size => exact tableOk_blank size
  | create h1 h2 ih => exact tableOk_create ih h2
  | write h1 h2 ih => exact tableOk_write ih h2
  | del h1 h2 ih => exact tableOk_delete ih h2

/-- C4: Allocator non-aliasing invariant — in every filesystem state
reachable from a blank filesystem by `create_file`, `write_file` and
`delete` operations, the direct pointer arrays of every pair of
distinct live inodes share no entry other than 0, and within one live
inode the non-zero entries are pairwise distinct (so the multiset
union of the two arrays has no duplicates other than 0). -/
theorem claim4_allocator_non_aliasing (fs : PhysFs)
    (hreach : Reachable fs) :
    ∀ k l, k < fs.inode_table.length → l < fs.inode_table.length →
      k ≠ l →
      (fs.inode_table.getD k default).num_data_blocks ≠ 0 →
      (fs.inode_table.getD l default).num_data_blocks ≠ 0 →
      ∀ i j, i < 12 → j < 12 →
        (fs.inode_table.getD k default).data_block_pointers.getD i 0 ≠ 0 →
        (fs.inode_table.getD k default).data_block_pointers.getD i 0 ≠
          (fs.inode_table.getD l default).data_block_pointers.getD j 0 ∧
        (i ≠ j →
          (fs.inode_table.getD k default).data_block_pointers.getD i 0 ≠
            (fs.inode_table.getD k
              default).data_block_pointers.getD j 0) := by
  obtain ⟨hRows, hPw⟩ := tableOk_reachable hreach
  intro k l hk hl hkl hlivek hlivel i j hi hj hnz
  constructor
  · rcases Nat.lt_or_ge k l with hlt | hge
    · exact pairwise_getD hPw k l hlt hl i j hi hj hnz
    · have hlt2 : l < k := by omega
      have hR := pairwise_getD hPw l k hlt2 hk
      by_cases hz : (fs.inode_table.getD l
          default).data_block_pointers.getD j 0 = 0
      · rw [hz]
        exact hnz
      · intro heq
        exact hR j i hj hi hz heq.symm
  · intro hij
    obtain ⟨-, -, -, -, -, hnd⟩ :=
      hRows (fs.inode_table.getD k default) (getD_mem _ _ _ hk)
    rcases Nat.lt_or_ge i j with hlt | hge
    · exact hnd i j hlt hj hnz
    · have hlt2 : j < i := by omega
      by_cases hz : (fs.inode_table.getD k
          default).data_block_pointers.getD j 0 = 0
      · rw [hz]
        exact hnz
      · intro heq
        exact hnd j i hlt2 hi hz heq.symm

/-- C4 witness: on the 1 MiB blank filesystem with `/a` and `/b`
created, rows 0 and 1 are live and their slot-0 metadata pointers
(blocks 1 and 2) differ. -/
theorem claim4_witness :
    (c4fs2.inode_table.getD 0 default).data_block_pointers.getD 0 0 ≠
      (c4fs2.inode_table.getD 1 default).data_block_pointers.getD 0 0 := by
  have hc1 : create_file pathA [6, 6, 6] 0 1 (VirtFs.new 1048576) =
      (c4fs1, .ok ()) := by
    have hsnd : (create_file pathA [6, 6, 6] 0 1
        (VirtFs.new 1048576)).2 = .ok () := by decide
    exact Prod.ext rfl hsnd
  have hc2 : create_file pathB [6, 6, 6] 0 2 c4fs1 = (c4fs2, .ok ()) := by
    have hsnd : (create_file pathB [6, 6, 6] 0 2 c4fs1).2 = .ok () := by
      decide
    exact Prod.ext rfl hsnd
  have hreach : Reachable c4fs2 :=
    Reachable.create (Reachable.create (Reachable.blank 1048576) hc1) hc2
  exact (claim4_allocator_non_aliasing c4fs2 hreach 0 1 (by decide)
    (by decide) (by decide) (by decide) (by decide) 0 0 (by decide)
    (by decide) (by decide)).1

end Rustnix
